import Mathlib

/-!
Shallow embedding of the mafia-online-game server core
(src/public/client.js, the later server revision; the shared game
functions are identical in src/unnamed/part_000).  JS objects used as
string-keyed maps are modelled as association lists in insertion order;
`Map.set` / property assignment update the first matching key in place
or append a fresh entry.  Randomness (role shuffle) is parameterized by
an explicit choice function.  Socket emissions are pure outputs and are
omitted; all state mutation is modelled by explicit state passing.
-/

/-- Roles, from `const ROLES = { TOWN, MAFIA, DOCTOR, DETECTIVE }`. -/
inductive Role where
  | TOWN
  | MAFIA
  | DOCTOR
  | DETECTIVE
deriving DecidableEq, Repr

/-- Phases, from `const PHASES = { LOBBY, DAY_DISCUSSION, ... , ENDED }`. -/
inductive Phase where
  | LOBBY
  | DAY_DISCUSSION
  | DAY_VOTING
  | SLEEP
  | DOCTOR
  | MAFIA
  | EXECUTION
  | ANNOUNCEMENT
  | ENDED
deriving DecidableEq, Repr

/-- A player record, as pushed by the `join_room` handler:
`{ id: socket.id, token, name, role: null, alive: true }`. -/
structure Player where
  id : String
  token : String
  name : String
  role : Option Role
  alive : Bool
deriving DecidableEq, Repr

/-- The per-night data `room.night = { doctorTargetId: null, mafiaVotes: {} }`. -/
structure Night where
  doctorTargetId : Option String
  mafiaVotes : List (String × String)
deriving DecidableEq, Repr

/-- A room record, as built by the `create_room` handler.  The timer
handle and the emitted snapshots carry no game state and are omitted. -/
structure Room where
  roomCode : String
  hostId : Option String
  hostToken : String
  hostName : String
  phase : Phase
  phaseEndsAt : Option Nat
  round : Nat
  announcement : String
  players : List Player
  dayVotes : List (String × String)
  dayDetectiveUsed : Bool
  dayDetectiveTargetId : Option String
  night : Night
deriving DecidableEq, Repr

/-- Result of a handler: the JS callback payload `{ ok: true }` or
`{ error: msg }`. -/
inductive Res where
  | ok
  | error (msg : String)
deriving DecidableEq, Repr

/-- Timer settings in seconds, from `const SETTINGS`. -/
def SETTINGS_DAY_DISCUSSION : Nat := 12 * 60

def SETTINGS_DAY_VOTING : Nat := 3 * 60

def SETTINGS_SLEEP : Nat := 60

def SETTINGS_DOCTOR : Nat := 2 * 60

def SETTINGS_MAFIA : Nat := 3 * 60

def SETTINGS_EXECUTION : Nat := 3 * 60

def SETTINGS_ANNOUNCEMENT : Nat := 15

/-- JS truthiness of a nullable string (`null` and the empty string are
falsy); used for checks such as `if (!mafiaTargetId)`. -/
def optTruthy : Option String → Bool
  | none => false
  | some s => !s.isEmpty

/-- Left-trim of a character list: drop leading whitespace. -/
def trimL : List Char → List Char
  | [] => []
  | c :: cs => if c.isWhitespace then trimL cs else c :: cs

/-- `String.prototype.trim`, modeled structurally over the character
list so that it evaluates. -/
def jsTrim (s : String) : String :=
  ⟨(trimL ((trimL s.data).reverse)).reverse⟩

/-- The string JS interpolates for a role value (`null` before game start). -/
def roleText : Option Role → String
  | none => "null"
  | some Role.TOWN => "TOWN"
  | some Role.MAFIA => "MAFIA"
  | some Role.DOCTOR => "DOCTOR"
  | some Role.DETECTIVE => "DETECTIVE"

/-- `function alivePlayers(room) { return room.players.filter((p) => p.alive); }` -/
def alivePlayers (room : Room) : List Player :=
  room.players.filter (fun p => p.alive)

/-- `function aliveCounts(room)`: alive mafia count and alive rest count. -/
def aliveCounts (room : Room) : Nat × Nat :=
  let alive := alivePlayers room
  let mafia := (alive.filter (fun p => p.role == some Role.MAFIA)).length
  let town := alive.length - mafia
  (mafia, town)

/-- `function checkWin(room)`: `"TOWN"` if no mafia alive, `"MAFIA"` if
mafia outnumber-or-equal the rest, else `null`. -/
def checkWin (room : Room) : Option String :=
  let c := aliveCounts room
  if c.1 = 0 then some "TOWN"
  else if c.2 ≤ c.1 then some "MAFIA"
  else none

/-- `function endGame(roomCode, winner)`: terminal transition. -/
def endGame (room : Room) (winner : String) : Room :=
  { room with
    phase := Phase.ENDED
    phaseEndsAt := none
    announcement := "GAME OVER. Winner: " ++ winner }

/-- Number of alive players that are not mafia (the "everyone else"
faction of the win evaluator). -/
def aliveNonMafiaCount (room : Room) : Nat :=
  (room.players.filter (fun p => p.alive && !(p.role == some Role.MAFIA))).length

/-- The in-place array swap `[roles[i], roles[j]] = [roles[j], roles[i]]`
(a no-op when an index is out of range, which the shuffle loop never
produces). -/
def swapL (l : List Role) (i j : Nat) : List Role :=
  match l[i]?, l[j]? with
  | some a, some b => (l.set i b).set j a
  | _, _ => l

/-- The descending shuffle loop
`for (let i = roles.length - 1; i > 0; i--) { const j = ...; swap }`,
with the random draw `Math.floor(Math.random() * (i + 1))` supplied as
`rand i % (i + 1)`. -/
def shuffleGo (rand : Nat → Nat) : Nat → List Role → List Role
  | 0, l => l
  | i + 1, l => shuffleGo rand i (swapL l (i + 1) (rand (i + 1) % (i + 2)))

/-- Fisher-Yates shuffle of the role list, as in `assignRoles`. -/
def shuffle (rand : Nat → Nat) (l : List Role) : List Role :=
  shuffleGo rand (l.length - 1) l

/-- `let mafiaCount = 2; if (n >= 9 && n <= 12) mafiaCount = 3; if (n >= 13) mafiaCount = 4;` -/
def mafiaCountFor (n : Nat) : Nat :=
  let m := 2
  let m := if 9 ≤ n ∧ n ≤ 12 then 3 else m
  let m := if 13 ≤ n then 4 else m
  m

/-- The unshuffled role list of `assignRoles`: Doctor, Detective, the
mafia block, then Town seats pushed `while (roles.length < n)`. -/
def rolesFor (n : Nat) : List Role :=
  let base := [Role.DOCTOR, Role.DETECTIVE] ++ List.replicate (mafiaCountFor n) Role.MAFIA
  base ++ List.replicate (n - base.length) Role.TOWN

/-- `function assignRoles(room)`: shuffle the role list and write
`p.role = roles[idx]; p.alive = true` for each player in order. -/
def assignRoles (room : Room) (rand : Nat → Nat) : Room :=
  let roles := shuffle rand (rolesFor room.players.length)
  { room with
    players :=
      (room.players.enum).map (fun ip => { ip.2 with role := roles[ip.1]?, alive := true }) }

/-- One step of `counts.set(targetId, (counts.get(targetId) || 0) + 1)`:
update the first entry with this key in place, else append a fresh
entry with count 1 (a JS `Map` keeps insertion order and unique keys). -/
def bump : List (String × Nat) → String → List (String × Nat)
  | [], t => [(t, 1)]
  | e :: rest, t => if e.1 = t then (e.1, e.2 + 1) :: rest else e :: bump rest t

/-- The tally pass shared verbatim by `resolveDayVoting` and
`resolveMafiaKillTarget`: walk the recorded votes, skip any vote whose
voter fails `eligVoter` or whose target fails `eligTarget` (the
`if (!voter || !target) continue;` line), and bump the target's count. -/
def tallyVotes (votes : List (String × String))
    (eligVoter eligTarget : String → Bool) : List (String × Nat) :=
  votes.foldl (fun cs v => if eligVoter v.1 && eligTarget v.2 then bump cs v.2 else cs) []

/-- One iteration of the selection loop over `counts.entries()`,
updating `(bestTargetId, bestCount, tie)`:
`if (c > bestCount) {...} else if (c === bestCount && c > 0) tie = true;`. -/
def selStep (st : Option String × Nat × Bool) (e : String × Nat) : Option String × Nat × Bool :=
  if st.2.1 < e.2 then (some e.1, e.2, false)
  else if e.2 = st.2.1 ∧ 0 < e.2 then (st.1, st.2.1, true)
  else st

/-- The full shared selection algorithm including the final
`if (!bestTargetId || bestCount === 0 || tie) return null`. -/
def selectBest (cs : List (String × Nat)) : Option String :=
  let r := cs.foldl selStep (none, 0, false)
  match r.1 with
  | none => none
  | some t => if t.isEmpty || (r.2.1 == 0) || r.2.2 then none else some t

/-- The tally of `resolveDayVoting`: voters and targets must both be
found in the alive list. -/
def dayCounts (room : Room) : List (String × Nat) :=
  let alive := alivePlayers room
  tallyVotes room.dayVotes
    (fun v => alive.any (fun p => p.id == v))
    (fun t => alive.any (fun p => p.id == t))

/-- The tally of `resolveMafiaKillTarget`: voters must be alive mafia,
targets must be alive. -/
def mafiaCounts (room : Room) : List (String × Nat) :=
  let alive := alivePlayers room
  let mafiaAlive := alive.filter (fun p => p.role == some Role.MAFIA)
  tallyVotes room.night.mafiaVotes
    (fun v => mafiaAlive.any (fun p => p.id == v))
    (fun t => alive.any (fun p => p.id == t))

/-- `function resolveMafiaKillTarget(room)`: the shared algorithm over
the mafia tally. -/
def resolveMafiaKillTarget (room : Room) : Option String :=
  selectBest (mafiaCounts room)

/-- The `bestTargetId` outcome computed inside `resolveDayVoting`. -/
def dayVoteTarget (room : Room) : Option String :=
  selectBest (dayCounts room)

/-- `eliminated.alive = false` / `target.alive = false`: flip the first
player carrying this id (the one `players.find` returns) to dead. -/
def killById : List Player → String → List Player
  | [], _ => []
  | p :: rest, t => if p.id = t then { p with alive := false } :: rest else p :: killById rest t

/-- `function resolveDayVoting(roomCode)`: eliminate the unique top
vote-getter, else announce no elimination; then run the win check. -/
def resolveDayVoting (room : Room) : Room :=
  match dayVoteTarget room with
  | none =>
    { room with announcement := "Voting ended: No one was eliminated (tie or no votes)." }
  | some tid =>
    let room1 :=
      match room.players.find? (fun p => p.id == tid) with
      | some p =>
        if p.alive then
          { room with
            players := killById room.players tid,
            announcement :=
              "Voting result: " ++ p.name ++ " eliminated. Role: " ++ roleText p.role }
        else room
      | none => room
    match checkWin room1 with
    | some w => endGame room1 w
    | none => room1

/-- `function resolveNightKill(roomCode)`: doctor save check, then the
kill, then the win check. -/
def resolveNightKill (room : Room) : Room :=
  let mt := resolveMafiaKillTarget room
  if !(optTruthy mt) then
    { room with announcement := "Night result: Mafia did not finalize a kill. No one died." }
  else
    let t := mt.getD ""
    match room.players.find? (fun p => p.id == t) with
    | none => { room with announcement := "Night result: Invalid target. No one died." }
    | some target =>
      if !target.alive then
        { room with announcement := "Night result: Invalid target. No one died." }
      else if optTruthy room.night.doctorTargetId
          && (room.night.doctorTargetId == some t) then
        { room with
          announcement := "Night result: " ++ target.name ++ " was attacked but saved by Doctor." }
      else
        let room1 :=
          { room with
            players := killById room.players t,
            announcement :=
              "Night result: " ++ target.name ++ " was killed. Role: " ++ roleText target.role }
        match checkWin room1 with
        | some w => endGame room1 w
        | none => room1

/-- `function startPhase(roomCode, phase, seconds)`: set the phase and
deadline and perform the phase-scoped resets. -/
def startPhase (room : Room) (phase : Phase) (seconds now : Nat) : Room :=
  let room := { room with phase := phase, phaseEndsAt := some (now + seconds * 1000) }
  let room := if phase = Phase.DAY_VOTING then { room with dayVotes := [] } else room
  let room :=
    if phase = Phase.DOCTOR then
      { room with night := { room.night with doctorTargetId := none } }
    else room
  let room :=
    if phase = Phase.MAFIA then
      { room with night := { room.night with mafiaVotes := [] } }
    else room
  let room :=
    if phase = Phase.DAY_DISCUSSION then
      { room with dayDetectiveUsed := false, dayDetectiveTargetId := none }
    else room
  room

/-- `function advancePhase(roomCode)`: the timeout-driven transition. -/
def advancePhase (room : Room) (now : Nat) : Room :=
  match room.phase with
  | Phase.ENDED => room
  | Phase.LOBBY => room
  | Phase.DAY_DISCUSSION => startPhase room Phase.DAY_VOTING SETTINGS_DAY_VOTING now
  | Phase.DAY_VOTING =>
    let room := resolveDayVoting room
    if room.phase = Phase.ENDED then room
    else startPhase room Phase.SLEEP SETTINGS_SLEEP now
  | Phase.SLEEP => startPhase room Phase.DOCTOR SETTINGS_DOCTOR now
  | Phase.DOCTOR => startPhase room Phase.MAFIA SETTINGS_MAFIA now
  | Phase.MAFIA => startPhase room Phase.EXECUTION SETTINGS_EXECUTION now
  | Phase.EXECUTION =>
    let room := resolveNightKill room
    if room.phase = Phase.ENDED then room
    else startPhase room Phase.ANNOUNCEMENT SETTINGS_ANNOUNCEMENT now
  | Phase.ANNOUNCEMENT =>
    startPhase { room with round := room.round + 1 } Phase.DAY_DISCUSSION
      SETTINGS_DAY_DISCUSSION now

/-- The `join_room` handler (room already looked up): reject outside
LOBBY, else push a fresh player record. -/
def joinRoom (room : Room) (sid token playerName : String) : Room × Res :=
  if !(room.phase == Phase.LOBBY) then (room, Res.error "Game already started.")
  else
    ({ room with
        players := room.players ++
          [{ id := sid, token := token,
             name := if (jsTrim playerName).isEmpty then "Player"
               else jsTrim playerName,
             role := none, alive := true }] },
     Res.ok)

/-- The `start_game` handler: host check and minimum-players check, then
role assignment and entry into DAY_DISCUSSION.  The handler has no
phase check. -/
def startGame (room : Room) (sid : String) (rand : Nat → Nat) (now : Nat) : Room × Res :=
  if !(room.hostId == some sid) then (room, Res.error "Only host can start.")
  else if room.players.length < 6 then (room, Res.error "Minimum 6 players required.")
  else
    let room := assignRoles room rand
    let room := { room with announcement := "Game started. Day Discussion begins (12 minutes)." }
    (startPhase room Phase.DAY_DISCUSSION SETTINGS_DAY_DISCUSSION now, Res.ok)

/-- `room.dayVotes[socket.id] = targetId` (and likewise for
`room.night.mafiaVotes`): update the first entry with this key, else
append. -/
def setVote : List (String × String) → String → String → List (String × String)
  | [], k, v => [(k, v)]
  | e :: rest, k, v => if e.1 = k then (k, v) :: rest else e :: setVote rest k v

/-- The `cast_vote` handler. -/
def castVote (room : Room) (sid targetId : String) : Room × Res :=
  if !(room.phase == Phase.DAY_VOTING) then (room, Res.error "Not voting phase.")
  else
    match room.players.find? (fun p => p.id == sid) with
    | none => (room, Res.error "You are not alive.")
    | some voter =>
      if !voter.alive then (room, Res.error "You are not alive.")
      else
        match room.players.find? (fun p => p.id == targetId) with
        | none => (room, Res.error "Target not alive.")
        | some target =>
          if !target.alive then (room, Res.error "Target not alive.")
          else ({ room with dayVotes := setVote room.dayVotes sid targetId }, Res.ok)

/-- The `doctor_protect` handler. -/
def doctorProtect (room : Room) (sid targetId : String) : Room × Res :=
  if !(room.phase == Phase.DOCTOR) then (room, Res.error "Not Doctor phase.")
  else
    match room.players.find? (fun p => p.id == sid) with
    | none => (room, Res.error "You are not alive.")
    | some doctor =>
      if !doctor.alive then (room, Res.error "You are not alive.")
      else if !(doctor.role == some Role.DOCTOR) then (room, Res.error "You are not Doctor.")
      else
        match room.players.find? (fun p => p.id == targetId) with
        | none => (room, Res.error "Target not alive.")
        | some target =>
          if !target.alive then (room, Res.error "Target not alive.")
          else
            ({ room with night := { room.night with doctorTargetId := some targetId } },
             Res.ok)

/-- The `mafia_vote_kill` handler. -/
def mafiaVoteKill (room : Room) (sid targetId : String) : Room × Res :=
  if !(room.phase == Phase.MAFIA) then (room, Res.error "Not Mafia phase.")
  else
    match room.players.find? (fun p => p.id == sid) with
    | none => (room, Res.error "You are not alive.")
    | some mafia =>
      if !mafia.alive then (room, Res.error "You are not alive.")
      else if !(mafia.role == some Role.MAFIA) then (room, Res.error "You are not Mafia.")
      else
        match room.players.find? (fun p => p.id == targetId) with
        | none => (room, Res.error "Target not alive.")
        | some target =>
          if !target.alive then (room, Res.error "Target not alive.")
          else
            ({ room with
                night := { room.night with
                  mafiaVotes := setVote room.night.mafiaVotes sid targetId } },
             Res.ok)

/-- The `detective_check` handler (later revision): allowed only during
the two day phases, gated by the once-per-day flag `dayDetectiveUsed`;
the private MAFIA / NOT MAFIA result is an emission, not state. -/
def detectiveCheck (room : Room) (sid targetId : String) : Room × Res :=
  if !((room.phase == Phase.DAY_DISCUSSION) || (room.phase == Phase.DAY_VOTING)) then
    (room, Res.error "Detective can investigate only during the day.")
  else
    match room.players.find? (fun p => p.id == sid) with
    | none => (room, Res.error "You are not alive.")
    | some det =>
      if !det.alive then (room, Res.error "You are not alive.")
      else if !(det.role == some Role.DETECTIVE) then (room, Res.error "You are not Detective.")
      else if room.dayDetectiveUsed then (room, Res.error "You already used investigation today.")
      else
        match room.players.find? (fun p => p.id == targetId) with
        | none => (room, Res.error "Target not alive.")
        | some target =>
          if !target.alive then (room, Res.error "Target not alive.")
          else
            ({ room with dayDetectiveUsed := true, dayDetectiveTargetId := some targetId },
             Res.ok)

/-- The `public_chat` handler: pure gating, the broadcast itself is an
emission and mutates nothing. -/
def publicChat (room : Room) (sid message : String) : Room × Res :=
  match room.players.find? (fun p => p.id == sid) with
  | none => (room, Res.error "Host cannot send public chat.")
  | some sender =>
    if !sender.alive then (room, Res.error "Dead players cannot send public chat.")
    else if (jsTrim message).isEmpty then (room, Res.error "Empty message.")
    else (room, Res.ok)

/-- The `mafia_chat` handler: pure gating, delivery is an emission. -/
def mafiaChat (room : Room) (sid message : String) : Room × Res :=
  match room.players.find? (fun p => p.id == sid) with
  | none => (room, Res.error "Host cannot use mafia chat.")
  | some sender =>
    if !sender.alive then (room, Res.error "Dead players cannot use mafia chat.")
    else if !(sender.role == some Role.MAFIA) then (room, Res.error "Only Mafia can use mafia chat.")
    else if (jsTrim message).isEmpty then (room, Res.error "Empty message.")
    else (room, Res.ok)

/-- `player.id = socket.id` on the player `players.find` returned: rebind
the first player carrying this token to the new connection. -/
def rebindFirst : List Player → String → String → List Player
  | [], _, _ => []
  | p :: rest, token, sid =>
    if p.token = token then { p with id := sid } :: rest else p :: rebindFirst rest token sid

/-- The `restore_session` handler on a found room: host-token match
rebinds the host connection, else the first player-token match rebinds
that player, else fail. -/
def restoreSession (room : Room) (sid rawToken : String) : Room × Res :=
  let token := jsTrim rawToken
  if token.isEmpty then (room, Res.error "Invalid token.")
  else if room.hostToken == token then ({ room with hostId := some sid }, Res.ok)
  else
    match room.players.find? (fun p => p.token == token) with
    | none => (room, Res.error "Session not found.")
    | some _ => ({ room with players := rebindFirst room.players token sid }, Res.ok)

/-- `rooms.get(roomCode)` over the registry map. -/
def findRoom (reg : List (String × Room)) (code : String) : Option Room :=
  (reg.find? (fun e => e.1 == code)).map (fun e => e.2)

/-- Write a room back under its code (a JS `Map` holds unique keys). -/
def setRoomIn : List (String × Room) → String → Room → List (String × Room)
  | [], _, _ => []
  | e :: rest, code, r => if e.1 = code then (e.1, r) :: rest else e :: setRoomIn rest code r

/-- The `restore_session` handler from the wire: normalize the code,
look the room up (unknown code fails with no change to any room), then
run the per-room restore. -/
def restoreSessionReg (reg : List (String × Room)) (rawCode sid rawToken : String) :
    List (String × Room) × Res :=
  let code := (jsTrim rawCode).toUpper
  match findRoom reg code with
  | none => (reg, Res.error "Room not found.")
  | some room =>
    let r := restoreSession room sid rawToken
    (setRoomIn reg code r.1, r.2)

/-- Inbound operations on a room, for trace reasoning. -/
inductive Op where
  | castVoteOp (sid tid : String)
  | doctorProtectOp (sid tid : String)
  | mafiaVoteKillOp (sid tid : String)
  | detectiveCheckOp (sid tid : String)
  | publicChatOp (sid msg : String)
  | mafiaChatOp (sid msg : String)
  | joinRoomOp (sid tok name : String)
  | restoreSessionOp (sid tok : String)
  | startGameOp (sid : String) (rand : Nat → Nat) (now : Nat)
  | advanceOp (now : Nat)

/-- Dispatch one inbound operation to its handler (timer wake-ups carry
no callback result). -/
def step (room : Room) : Op → Room × Res
  | Op.castVoteOp s t => castVote room s t
  | Op.doctorProtectOp s t => doctorProtect room s t
  | Op.mafiaVoteKillOp s t => mafiaVoteKill room s t
  | Op.detectiveCheckOp s t => detectiveCheck room s t
  | Op.publicChatOp s m => publicChat room s m
  | Op.mafiaChatOp s m => mafiaChat room s m
  | Op.joinRoomOp s tok n => joinRoom room s tok n
  | Op.restoreSessionOp s tok => restoreSession room s tok
  | Op.startGameOp s rand now => startGame room s rand now
  | Op.advanceOp now => (advancePhase room now, Res.ok)

/-- Whether this operation enters a fresh `DAY_DISCUSSION` phase: those
are exactly the two code paths that call
`startPhase(roomCode, PHASES.DAY_DISCUSSION, ...)` — a succeeding
`start_game` and the `ANNOUNCEMENT` timeout. -/
def entersDayDiscussion (room : Room) : Op → Bool
  | Op.startGameOp sid _ _ => (room.hostId == some sid) && !(room.players.length < 6)
  | Op.advanceOp _ => room.phase == Phase.ANNOUNCEMENT
  | _ => false

/-- No operation along the trace enters a fresh `DAY_DISCUSSION`. -/
def noDDEntry : Room → List Op → Bool
  | _, [] => true
  | room, op :: ops => !(entersDayDiscussion room op) && noDDEntry (step room op).1 ops

/-- 1 when this operation is an investigation that was accepted. -/
def detInc : Op → Res → Nat
  | Op.detectiveCheckOp _ _, Res.ok => 1
  | _, _ => 0

/-- Number of investigations that succeed along the trace. -/
def detSuccCount : Room → List Op → Nat
  | _, [] => 0
  | room, op :: ops => detInc op (step room op).2 + detSuccCount (step room op).1 ops

/-- Count recorded for a target in a tally (`counts.get(t)`, 0 when absent). -/
def lk : List (String × Nat) → String → Nat
  | [], _ => 0
  | e :: rest, t => if e.1 = t then e.2 else lk rest t

/-- The recorded choice of a voter in a vote map. -/
def lkVote : List (String × String) → String → Option String
  | [], _ => none
  | e :: rest, k => if e.1 = k then some e.2 else lkVote rest k

/-- Voter identities of a vote map. -/
def votesKeys (vs : List (String × String)) : List String := vs.map (fun e => e.1)

/-- Candidate identities of a tally. -/
def keysOf (cs : List (String × Nat)) : List String := cs.map (fun e => e.1)

/-- Running maximum of the tally counts (0 on an empty tally). -/
def mx (cs : List (String × Nat)) : Nat := cs.foldl (fun a e => max a e.2) 0

/-- Candidate `t` holds the strictly highest positive count of the tally. -/
def uniqueTop (cs : List (String × Nat)) (t : String) : Prop :=
  ∃ c, (t, c) ∈ cs ∧ ∀ e ∈ cs, e.1 ≠ t → e.2 < c

/-- A six-player lobby, as produced by `create_room` and six `join_room`s. -/
def lobbyRoom6 : Room :=
  { roomCode := "R", hostId := some "h", hostToken := "ht", hostName := "H",
    phase := Phase.LOBBY, phaseEndsAt := none, round := 1,
    announcement := "Room created. Waiting for players...",
    players :=
      [{ id := "a", token := "ta", name := "A", role := none, alive := true },
       { id := "b", token := "tb", name := "B", role := none, alive := true },
       { id := "c", token := "tc", name := "C", role := none, alive := true },
       { id := "d", token := "td", name := "D", role := none, alive := true },
       { id := "e", token := "te", name := "E", role := none, alive := true },
       { id := "f", token := "tf", name := "F", role := none, alive := true }],
    dayVotes := [], dayDetectiveUsed := false, dayDetectiveTargetId := none,
    night := { doctorTargetId := none, mafiaVotes := [] } }

/-- A mid-game room used by concrete witnesses: six players with fixed
roles, all alive. -/
def gameRoom6 (phase : Phase) : Room :=
  { roomCode := "R", hostId := some "h", hostToken := "ht", hostName := "H",
    phase := phase, phaseEndsAt := some 1000, round := 1,
    announcement := "",
    players :=
      [{ id := "a", token := "ta", name := "A", role := some Role.DOCTOR, alive := true },
       { id := "b", token := "tb", name := "B", role := some Role.DETECTIVE, alive := true },
       { id := "c", token := "tc", name := "C", role := some Role.MAFIA, alive := true },
       { id := "d", token := "td", name := "D", role := some Role.MAFIA, alive := true },
       { id := "e", token := "te", name := "E", role := some Role.TOWN, alive := true },
       { id := "f", token := "tf", name := "F", role := some Role.TOWN, alive := true }],
    dayVotes := [], dayDetectiveUsed := false, dayDetectiveTargetId := none,
    night := { doctorTargetId := none, mafiaVotes := [] } }

/-- A concrete night scenario: both mafia members vote to kill player "e",
while the doctor protects player "f". -/
def nightRoomC4 : Room :=
  { gameRoom6 Phase.EXECUTION with
    night := { doctorTargetId := some "f", mafiaVotes := [("c", "e"), ("d", "e")] } }

theorem filter_mafia_add_nonmafia (l : List Player) :
    ((l.filter (fun p => p.alive)).filter (fun p => p.role == some Role.MAFIA)).length
      + (l.filter (fun p => p.alive && !(p.role == some Role.MAFIA))).length
      = (l.filter (fun p => p.alive)).length := by
  induction l with
  | nil => simp
  | cons p ps ih =>
    by_cases hA : p.alive = true
    · by_cases hM : (p.role == some Role.MAFIA) = true
      · simp [List.filter_cons, List.filter_filter, hA, hM] at ih ⊢
        omega
      · simp [List.filter_cons, List.filter_filter, hA, hM] at ih ⊢
        omega
    · simp [List.filter_cons, List.filter_filter, hA] at ih ⊢
      omega

theorem aliveCounts_town_eq (room : Room) :
    (aliveCounts room).2 = aliveNonMafiaCount room := by
  simp only [aliveCounts, aliveNonMafiaCount, alivePlayers]
  have := filter_mafia_add_nonmafia room.players
  simp only [alivePlayers] at this
  omega

/-- C5: the win evaluator returns Town exactly when no mafia is alive,
Mafia exactly when a nonzero mafia count is at least the count of all
other alive players, and no winner otherwise. -/
theorem claim_C5_win_evaluator (room : Room) :
    (checkWin room = some "TOWN" ↔ (aliveCounts room).1 = 0) ∧
    (checkWin room = some "MAFIA" ↔
      (aliveCounts room).1 ≠ 0 ∧ aliveNonMafiaCount room ≤ (aliveCounts room).1) ∧
    (checkWin room = none ↔
      0 < (aliveCounts room).1 ∧ (aliveCounts room).1 < aliveNonMafiaCount room) := by
  rw [← aliveCounts_town_eq]
  unfold checkWin
  rcases h : aliveCounts room with ⟨m, t⟩
  by_cases hm : m = 0 <;> by_cases ht : t ≤ m <;>
    simp [hm, ht] <;> omega

/-- C10: if every player is dead the win evaluator declares Town the
winner (the zero-mafia test precedes the mafia-majority test). -/
theorem claim_C10_all_dead_town_wins (room : Room)
    (h : ∀ p ∈ room.players, p.alive = false) : checkWin room = some "TOWN" := by
  have halive : alivePlayers room = [] := by
    unfold alivePlayers
    rw [List.filter_eq_nil_iff]
    intro p hp
    simp [h p hp]
  have hz : (aliveCounts room).1 = 0 := by
    unfold aliveCounts
    simp [halive]
  unfold checkWin
  simp [hz]


/-- Witness for C10 at a concrete two-player room with everyone dead. -/
theorem claim_C10_witness :
    checkWin
      { roomCode := "R", hostId := some "h", hostToken := "ht", hostName := "H",
        phase := Phase.EXECUTION, phaseEndsAt := none, round := 2,
        announcement := "",
        players :=
          [{ id := "a", token := "ta", name := "A", role := some Role.MAFIA, alive := false },
           { id := "b", token := "tb", name := "B", role := some Role.TOWN, alive := false }],
        dayVotes := [], dayDetectiveUsed := false, dayDetectiveTargetId := none,
        night := { doctorTargetId := none, mafiaVotes := [] } } = some "TOWN" :=
  claim_C10_all_dead_town_wins _ (by decide)

theorem countP_set_add (p : Role → Bool) (l : List Role) :
    ∀ (i : Nat) (h : i < l.length) (b : Role),
      (l.set i b).countP p + (if p (l.get ⟨i, h⟩) then 1 else 0)
        = l.countP p + (if p b then 1 else 0) := by
  induction l with
  | nil => intro i h; simp at h
  | cons x xs ih =>
    intro i h b
    cases i with
    | zero =>
      simp only [List.set_cons_zero, List.countP_cons, List.get]
      omega
    | succ i =>
      have hi : i < xs.length := by simpa using h
      have := ih i hi b
      simp only [List.set_cons_succ, List.countP_cons, List.get]
      omega

theorem countP_swapL (p : Role → Bool) (l : List Role) (i j : Nat) :
    (swapL l i j).countP p = l.countP p := by
  cases hi : l[i]? with
  | none => simp [swapL, hi]
  | some a =>
    cases hj : l[j]? with
    | none => simp [swapL, hi, hj]
    | some b =>
      have hswap : swapL l i j = (l.set i b).set j a := by
        simp [swapL, hi, hj]
      rw [hswap]
      obtain ⟨hi', hia⟩ := List.getElem?_eq_some_iff.mp hi
      obtain ⟨hj', hjb⟩ := List.getElem?_eq_some_iff.mp hj
      have hj'' : j < (l.set i b).length := by simpa using hj'
      have h1 := countP_set_add p (l.set i b) j hj'' a
      have h2 := countP_set_add p l i hi' b
      have hgetj : (l.set i b).get ⟨j, hj''⟩ = b := by
        by_cases hij : i = j
        · subst hij
          simp
        · rw [List.get_eq_getElem, List.getElem_set_ne hij]
          exact hjb
      have hgeti : l.get ⟨i, hi'⟩ = a := by
        rw [List.get_eq_getElem]; exact hia
      rw [hgetj] at h1
      rw [hgeti] at h2
      omega

theorem countP_shuffleGo (p : Role → Bool) (rand : Nat → Nat) :
    ∀ (i : Nat) (l : List Role), (shuffleGo rand i l).countP p = l.countP p := by
  intro i
  induction i with
  | zero => intro l; rfl
  | succ i ih =>
    intro l
    rw [shuffleGo, ih, countP_swapL]

theorem countP_shuffle (p : Role → Bool) (rand : Nat → Nat) (l : List Role) :
    (shuffle rand l).countP p = l.countP p :=
  countP_shuffleGo p rand _ l

theorem length_swapL (l : List Role) (i j : Nat) : (swapL l i j).length = l.length := by
  unfold swapL
  cases hi : l[i]? <;> cases hj : l[j]? <;> simp

theorem length_shuffleGo (rand : Nat → Nat) :
    ∀ (i : Nat) (l : List Role), (shuffleGo rand i l).length = l.length := by
  intro i
  induction i with
  | zero => intro l; rfl
  | succ i ih =>
    intro l
    rw [shuffleGo, ih, length_swapL]

theorem length_shuffle (rand : Nat → Nat) (l : List Role) :
    (shuffle rand l).length = l.length :=
  length_shuffleGo rand _ l

theorem enumFrom_assign_eq_zipWith (roles : List Role) :
    ∀ (ps : List Player) (k : Nat), k + ps.length ≤ roles.length →
      (ps.enumFrom k).map (fun ip => { ip.2 with role := roles[ip.1]?, alive := true })
        = ps.zipWith (fun p r => { p with role := some r, alive := true }) (roles.drop k) := by
  intro ps
  induction ps with
  | nil => intro k hk; simp
  | cons p ps ih =>
    intro k hk
    have hklt : k < roles.length := by
      simp only [List.length_cons] at hk
      omega
    have hget : roles[k]? = some (roles[k]) := by
      simp [hklt]
    have hdrop : roles.drop k = roles[k] :: roles.drop (k + 1) :=
      List.drop_eq_getElem_cons hklt
    simp only [List.enumFrom_cons, List.map_cons, hget, hdrop, List.zipWith_cons_cons]
    congr 1
    apply ih
    simp only [List.length_cons] at hk
    omega

theorem countP_zipWith_assign (r : Role) :
    ∀ (ps : List Player) (roles : List Role), ps.length = roles.length →
      (ps.zipWith (fun p ro => { p with role := some ro, alive := true }) roles).countP
          (fun q => q.role == some r)
        = roles.count r := by
  intro ps
  induction ps with
  | nil =>
    intro roles h
    cases roles with
    | nil => rfl
    | cons a l => simp at h
  | cons p ps ih =>
    intro roles h
    cases roles with
    | nil => simp at h
    | cons ro rest =>
      simp only [List.zipWith_cons_cons, List.countP_cons, List.count_cons]
      rw [ih rest (by simpa using h)]
      by_cases hr : ro = r
      · simp [hr]
      · simp [hr, Option.some_inj]

theorem alive_zipWith_assign :
    ∀ (ps : List Player) (roles : List Role),
      ∀ q ∈ ps.zipWith (fun p ro => { p with role := some ro, alive := true }) roles,
        q.alive = true := by
  intro ps
  induction ps with
  | nil => intro roles q hq; simp at hq
  | cons p ps ih =>
    intro roles q hq
    cases roles with
    | nil => simp at hq
    | cons ro rest =>
      simp only [List.zipWith_cons_cons, List.mem_cons] at hq
      rcases hq with h | h
      · rw [h]
      · exact ih rest q h

theorem mafiaCountFor_bounds (n : Nat) :
    2 ≤ mafiaCountFor n ∧ mafiaCountFor n ≤ 4 := by
  unfold mafiaCountFor
  by_cases h9 : 9 ≤ n ∧ n ≤ 12 <;> by_cases h13 : 13 ≤ n <;> simp [h9, h13]

theorem rolesFor_length (n : Nat) (h : 6 ≤ n) : (rolesFor n).length = n := by
  have hb := mafiaCountFor_bounds n
  unfold rolesFor
  simp only [List.length_append, List.length_cons, List.length_replicate, List.length_nil]
  omega

theorem rolesFor_count_DOCTOR (n : Nat) : (rolesFor n).count Role.DOCTOR = 1 := by
  unfold rolesFor
  simp [List.count_append, List.count_replicate, List.count_cons]

theorem rolesFor_count_DETECTIVE (n : Nat) : (rolesFor n).count Role.DETECTIVE = 1 := by
  unfold rolesFor
  simp [List.count_append, List.count_replicate, List.count_cons]

theorem rolesFor_count_MAFIA (n : Nat) : (rolesFor n).count Role.MAFIA = mafiaCountFor n := by
  unfold rolesFor
  simp [List.count_append, List.count_replicate, List.count_cons]

theorem rolesFor_count_TOWN (n : Nat) (h : 6 ≤ n) :
    (rolesFor n).count Role.TOWN = n - 2 - mafiaCountFor n := by
  have hb := mafiaCountFor_bounds n
  unfold rolesFor
  simp [List.count_append, List.count_replicate, List.count_cons,
    List.length_append, List.length_cons, List.length_replicate]
  omega

theorem assignRoles_players_eq (room : Room) (rand : Nat → Nat)
    (h6 : 6 ≤ room.players.length) :
    (assignRoles room rand).players
      = room.players.zipWith (fun p r => { p with role := some r, alive := true })
          (shuffle rand (rolesFor room.players.length)) := by
  unfold assignRoles
  simp only [List.enum]
  rw [enumFrom_assign_eq_zipWith]
  · simp
  · rw [length_shuffle, rolesFor_length _ h6]
    omega

/-- C9: role assignment over N players (N at least 6) yields exactly one
Doctor, one Detective, k Mafia with k = 2 for N < 9, k = 3 for
9 <= N <= 12, k = 4 for N >= 13, and N - 2 - k Town, and leaves every
player alive. -/
theorem claim_C9_role_assignment (room : Room) (rand : Nat → Nat)
    (h6 : 6 ≤ room.players.length) :
    (assignRoles room rand).players.length = room.players.length ∧
    ((assignRoles room rand).players.countP (fun q => q.role == some Role.DOCTOR) = 1) ∧
    ((assignRoles room rand).players.countP (fun q => q.role == some Role.DETECTIVE) = 1) ∧
    ((assignRoles room rand).players.countP (fun q => q.role == some Role.MAFIA)
      = mafiaCountFor room.players.length) ∧
    ((assignRoles room rand).players.countP (fun q => q.role == some Role.TOWN)
      = room.players.length - 2 - mafiaCountFor room.players.length) ∧
    (∀ q ∈ (assignRoles room rand).players, q.alive = true) ∧
    (room.players.length < 9 → mafiaCountFor room.players.length = 2) ∧
    (9 ≤ room.players.length → room.players.length ≤ 12 →
      mafiaCountFor room.players.length = 3) ∧
    (13 ≤ room.players.length → mafiaCountFor room.players.length = 4) := by
  have hlen : room.players.length
      = (shuffle rand (rolesFor room.players.length)).length := by
    rw [length_shuffle, rolesFor_length _ h6]
  have hps := assignRoles_players_eq room rand h6
  have hcount : ∀ r : Role,
      (assignRoles room rand).players.countP (fun q => q.role == some r)
        = (rolesFor room.players.length).count r := by
    intro r
    rw [hps, countP_zipWith_assign r room.players _ hlen]
    rw [List.count_eq_countP, List.count_eq_countP]
    exact countP_shuffle (fun x => x == r) rand _
  refine ⟨?_, ?_, ?_, ?_, ?_, ?_, ?_, ?_, ?_⟩
  · rw [hps, List.length_zipWith]
    omega
  · rw [hcount, rolesFor_count_DOCTOR]
  · rw [hcount, rolesFor_count_DETECTIVE]
  · rw [hcount, rolesFor_count_MAFIA]
  · rw [hcount, rolesFor_count_TOWN _ h6]
  · intro q hq
    rw [hps] at hq
    exact alive_zipWith_assign room.players _ q hq
  · intro h
    unfold mafiaCountFor
    have : ¬(9 ≤ room.players.length ∧ room.players.length ≤ 12) := by omega
    have h13 : ¬(13 ≤ room.players.length) := by omega
    simp [this, h13]
  · intro h1 h2
    unfold mafiaCountFor
    have h13 : ¬(13 ≤ room.players.length) := by omega
    simp [h1, h2, h13]
  · intro h
    unfold mafiaCountFor
    simp [h]

/-- Witness for C9 on the concrete six-player lobby with the identity
shuffle draw. -/
theorem claim_C9_witness :
    6 ≤ lobbyRoom6.players.length ∧
    (assignRoles lobbyRoom6 (fun i => i)).players.countP
      (fun q => q.role == some Role.DOCTOR) = 1 ∧
    (assignRoles lobbyRoom6 (fun i => i)).players.countP
      (fun q => q.role == some Role.MAFIA) = 2 :=
  ⟨by decide,
   (claim_C9_role_assignment lobbyRoom6 (fun i => i) (by decide)).2.1,
   (claim_C9_role_assignment lobbyRoom6 (fun i => i) (by decide)).2.2.2.1⟩

theorem le_foldl_max (l : List (String × Nat)) :
    ∀ init : Nat, init ≤ l.foldl (fun a e => max a e.2) init := by
  induction l with
  | nil => intro init; exact Nat.le_refl _
  | cons e rest ih =>
    intro init
    exact Nat.le_trans (Nat.le_max_left init e.2) (ih (max init e.2))

theorem mem_le_foldl_max (l : List (String × Nat)) :
    ∀ init : Nat, ∀ e ∈ l, e.2 ≤ l.foldl (fun a e => max a e.2) init := by
  induction l with
  | nil => intro init e he; simp at he
  | cons x rest ih =>
    intro init e he
    rcases List.mem_cons.mp he with h | h
    · subst h
      exact Nat.le_trans (Nat.le_max_right init e.2) (le_foldl_max rest _)
    · exact ih _ e h

theorem le_mx (l : List (String × Nat)) (e : String × Nat) (he : e ∈ l) : e.2 ≤ mx l :=
  mem_le_foldl_max l 0 e he

theorem foldl_max_le (l : List (String × Nat)) :
    ∀ (init c : Nat), init ≤ c → (∀ e ∈ l, e.2 ≤ c) →
      l.foldl (fun a e => max a e.2) init ≤ c := by
  induction l with
  | nil => intro init c h _; exact h
  | cons x rest ih =>
    intro init c h hall
    apply ih
    · exact Nat.max_le.mpr ⟨h, hall x (List.mem_cons_self x rest)⟩
    · intro e he
      exact hall e (List.mem_cons_of_mem x he)

theorem mx_append_singleton (l : List (String × Nat)) (e : String × Nat) :
    mx (l ++ [e]) = max (mx l) e.2 := by
  simp [mx, List.foldl_append]

theorem two_mem_le_countP (p : String × Nat → Bool) (l : List (String × Nat))
    (a b : String × Nat) (ha : a ∈ l) (hb : b ∈ l) (hab : a ≠ b)
    (hpa : p a = true) (hpb : p b = true) : 2 ≤ l.countP p := by
  rw [List.countP_eq_length_filter]
  have ha' : a ∈ l.filter p := List.mem_filter.mpr ⟨ha, hpa⟩
  have hb' : b ∈ l.filter p := List.mem_filter.mpr ⟨hb, hpb⟩
  have hae : a ∈ (l.filter p).erase b := (List.mem_erase_of_ne hab).mpr ha'
  have h1 : 1 ≤ ((l.filter p).erase b).length := List.length_pos.mpr (by
    intro hnil
    rw [hnil] at hae
    simp at hae)
  have h2 : ((l.filter p).erase b).length = (l.filter p).length - 1 :=
    List.length_erase_of_mem hb'
  omega

theorem selFold_spec (cs : List (String × Nat)) (hp : ∀ e ∈ cs, 0 < e.2) :
    (cs = [] ∧ cs.foldl selStep (none, 0, false) = (none, 0, false)) ∨
    (∃ t, (cs.foldl selStep (none, 0, false)).1 = some t ∧
      (cs.foldl selStep (none, 0, false)).2.1 = mx cs ∧
      (t, mx cs) ∈ cs ∧
      ((cs.foldl selStep (none, 0, false)).2.2 = true ↔
        2 ≤ cs.countP (fun e => e.2 == mx cs))) := by
  induction cs using List.reverseRecOn with
  | nil => exact Or.inl ⟨rfl, rfl⟩
  | append_singleton l e ih =>
    have hp_l : ∀ x ∈ l, 0 < x.2 := fun x hx => hp x (List.mem_append_left _ hx)
    have hp_e : 0 < e.2 := hp e (List.mem_append_right _ (List.mem_singleton_self e))
    have hfold : (l ++ [e]).foldl selStep (none, 0, false)
        = selStep (l.foldl selStep (none, 0, false)) e := by
      rw [List.foldl_append]
      rfl
    rcases ih hp_l with ⟨hnil, hacc⟩ | ⟨t, h1, h2, h3, h4⟩
    · subst hnil
      right
      have hsel : selStep (none, 0, false) e = (some e.1, e.2, false) := by
        simp [selStep, hp_e]
      have hmx : mx ([] ++ [e]) = e.2 := by
        rw [mx_append_singleton]
        simp [mx]
      have hfold0 : (([] ++ [e] : List (String × Nat))).foldl selStep (none, 0, false)
          = (some e.1, e.2, false) := by
        rw [hfold, hacc, hsel]
      have hcnt : (([] ++ [e] : List (String × Nat))).countP
          (fun x => x.2 == mx ([] ++ [e])) = 1 := by
        rw [hmx]
        simp [List.countP_cons]
      refine ⟨e.1, ?_, ?_, ?_, ?_⟩
      · rw [hfold0]
      · rw [hfold0, hmx]
      · rw [hmx]
        simp
      · rw [hfold0, hcnt]
        simp
    · right
      rcases hstate : l.foldl selStep (none, 0, false) with ⟨b, bc, tie⟩
      rw [hstate] at h1 h2 h4
      simp only at h1 h2 h4
      subst h2
      have hMpos : 0 < mx l := hp_l (t, mx l) h3
      by_cases hgt : mx l < e.2
      · -- the new entry is a strictly new maximum
        have hsel : selStep (b, mx l, tie) e = (some e.1, e.2, false) := by
          simp [selStep, hgt]
        have hmx : mx (l ++ [e]) = e.2 := by
          rw [mx_append_singleton]
          omega
        have hl0 : l.countP (fun x => x.2 == e.2) = 0 := by
          rw [List.countP_eq_zero]
          intro x hx
          have := le_mx l x hx
          simp only [beq_iff_eq]
          omega
        have hcnt : (l ++ [e]).countP (fun x => x.2 == e.2) = 1 := by
          rw [List.countP_append, hl0]
          simp [List.countP_cons]
        refine ⟨e.1, ?_, ?_, ?_, ?_⟩
        · rw [hfold, hstate, hsel]
        · rw [hfold, hstate, hsel, hmx]
        · rw [hmx]
          exact List.mem_append_right _ (by simp)
        · rw [hfold, hstate, hsel, hmx, hcnt]
          simp
      · -- the running maximum survives
        have hmx : mx (l ++ [e]) = mx l := by
          rw [mx_append_singleton]
          omega
        by_cases heq : e.2 = mx l
        · -- tie with the running maximum
          have hsel : selStep (b, mx l, tie) e = (b, mx l, true) := by
            have hc2 : e.2 = ((b, mx l, tie) : Option String × Nat × Bool).2.1 ∧ 0 < e.2 :=
              ⟨heq, hp_e⟩
            simp only [selStep, if_neg hgt, if_pos hc2]
          have hone : 1 ≤ l.countP (fun x => x.2 == mx l) :=
            List.countP_pos_iff.mpr ⟨(t, mx l), h3, by simp⟩
          have hcnt : (l ++ [e]).countP (fun x => x.2 == mx l)
              = l.countP (fun x => x.2 == mx l) + 1 := by
            rw [List.countP_append]
            simp [List.countP_cons, heq]
          refine ⟨t, ?_, ?_, ?_, ?_⟩
          · rw [hfold, hstate, hsel]
            exact h1
          · rw [hfold, hstate, hsel, hmx]
          · rw [hmx]
            exact List.mem_append_left _ h3
          · rw [hfold, hstate, hsel, hmx, hcnt]
            constructor
            · intro _
              omega
            · intro _
              rfl
        · -- strictly below the running maximum
          have hsel : selStep (b, mx l, tie) e = (b, mx l, tie) := by
            have hc2 : ¬(e.2 = ((b, mx l, tie) : Option String × Nat × Bool).2.1 ∧ 0 < e.2) :=
              fun hx => heq hx.1
            simp only [selStep, if_neg hgt, if_neg hc2]
          have hc0 : ([e] : List (String × Nat)).countP (fun x => x.2 == mx l) = 0 := by
            simp [List.countP_cons, heq]
          have hcnt : (l ++ [e]).countP (fun x => x.2 == mx l)
              = l.countP (fun x => x.2 == mx l) := by
            rw [List.countP_append, hc0]
            omega
          refine ⟨t, ?_, ?_, ?_, ?_⟩
          · rw [hfold, hstate, hsel]
            exact h1
          · rw [hfold, hstate, hsel, hmx]
          · rw [hmx]
            exact List.mem_append_left _ h3
          · rw [hfold, hstate, hsel, hmx, hcnt]
            exact h4

theorem keys_nodup_mem_unique (cs : List (String × Nat)) (hnd : (keysOf cs).Nodup)
    (t : String) (x y : Nat) (hx : (t, x) ∈ cs) (hy : (t, y) ∈ cs) : x = y := by
  induction cs with
  | nil => simp at hx
  | cons e rest ih =>
    have hnd' : e.1 ∉ keysOf rest ∧ (keysOf rest).Nodup := by
      simpa [keysOf] using hnd
    rcases List.mem_cons.mp hx with hx1 | hx1
    · rcases List.mem_cons.mp hy with hy1 | hy1
      · exact (Prod.ext_iff.mp (hx1.trans hy1.symm)).2
      · exfalso
        apply hnd'.1
        have he1 : e.1 = t := by rw [← hx1]
        rw [he1]
        simpa [keysOf] using List.mem_map_of_mem (fun z => z.1) hy1
    · rcases List.mem_cons.mp hy with hy1 | hy1
      · exfalso
        apply hnd'.1
        have he1 : e.1 = t := by rw [← hy1]
        rw [he1]
        simpa [keysOf] using List.mem_map_of_mem (fun z => z.1) hx1
      · exact ih hnd'.2 hx1 hy1

theorem count_pair_le_one (cs : List (String × Nat)) (hnd : (keysOf cs).Nodup)
    (x : String × Nat) : cs.count x ≤ 1 := by
  have h1 : cs.count x ≤ (cs.map (fun z => z.1)).count x.1 :=
    List.count_le_count_map cs (fun z => z.1) x
  have h2 : (cs.map (fun z => z.1)).count x.1 ≤ 1 :=
    List.nodup_iff_count_le_one.mp (by simpa [keysOf] using hnd) x.1
  omega

theorem countP_le_of_all_eq (p : String × Nat → Bool) (x : String × Nat) :
    ∀ cs : List (String × Nat), (∀ e ∈ cs, p e = true → e = x) →
      cs.countP p ≤ cs.count x := by
  intro cs
  induction cs with
  | nil => intro _; simp
  | cons e rest ih =>
    intro hall
    have hrest := ih (fun z hz hp => hall z (List.mem_cons_of_mem e hz) hp)
    rw [List.countP_cons, List.count_cons]
    by_cases hp2 : p e = true
    · have hex : e = x := hall e (List.mem_cons_self e rest) hp2
      subst hex
      simp [hp2]
      omega
    · simp [hp2]
      omega

theorem selectBest_eq_some_iff (cs : List (String × Nat))
    (hp : ∀ e ∈ cs, 0 < e.2) (hnd : (keysOf cs).Nodup)
    (hne : ∀ k ∈ keysOf cs, k ≠ "") (t : String) :
    selectBest cs = some t ↔ uniqueTop cs t := by
  rcases selFold_spec cs hp with ⟨hnil, hacc⟩ | ⟨t0, h1, h2, h3, h4⟩
  · subst hnil
    constructor
    · intro h
      simp [selectBest] at h
    · intro ⟨c, hmem, _⟩
      simp at hmem
  · rcases hr : cs.foldl selStep (none, 0, false) with ⟨b, bc, tie⟩
    rw [hr] at h1 h2 h4
    simp only at h1 h2 h4
    subst h1
    subst h2
    have hM : 0 < mx cs := hp (t0, mx cs) h3
    have ht0keys : t0 ∈ keysOf cs := by
      simpa [keysOf] using List.mem_map_of_mem (fun z => z.1) h3
    have ht0ne : t0 ≠ "" := hne t0 ht0keys
    have ht0emp : t0.isEmpty = false := by
      rcases h : t0.isEmpty with _ | _
      · rfl
      · exact absurd ((String.isEmpty_iff t0).mp h) ht0ne
    have hbc : (mx cs == 0) = false := by
      simp
      omega
    have hsel : selectBest cs
        = if t0.isEmpty || (mx cs == 0) || tie then none else some t0 := by
      simp [selectBest, hr]
    rw [ht0emp, hbc] at hsel
    simp only [Bool.false_or] at hsel
    constructor
    · intro h
      rcases htie : tie with _ | _
      · -- no tie: the unique positive maximum is t0 = t
        rw [htie] at hsel
        simp at hsel
        have hts : t = t0 := by
          rw [hsel] at h
          exact (Option.some_inj.mp h).symm
        subst hts
        rw [htie] at h4
        have hcnt1 : cs.countP (fun e => e.2 == mx cs) < 2 := by
          by_contra hc
          have := h4.mpr (by omega)
          simp at this
        refine ⟨mx cs, h3, ?_⟩
        intro e he hne1
        have hle : e.2 ≤ mx cs := le_mx cs e he
        rcases Nat.lt_or_ge e.2 (mx cs) with hlt | hge
        · exact hlt
        · exfalso
          have heq : e.2 = mx cs := by omega
          have hneq : e ≠ (t, mx cs) := by
            intro hcontra
            rw [hcontra] at hne1
            exact hne1 rfl
          have := two_mem_le_countP (fun z => z.2 == mx cs) cs e (t, mx cs)
            he h3 hneq (by simp [heq]) (by simp)
          omega
      · rw [htie] at hsel
        simp at hsel
        rw [hsel] at h
        exact absurd h (by simp)
    · intro ⟨c, hmem, hmax⟩
      have hceq : c = mx cs := by
        have hle : c ≤ mx cs := le_mx cs (t, c) hmem
        have hge : mx cs ≤ c := by
          apply foldl_max_le cs 0 c (Nat.zero_le c)
          intro e he
          by_cases hkey : e.1 = t
          · have he' : (t, e.2) ∈ cs := by
              have hee : e = (t, e.2) := by
                rw [← hkey]
              rw [← hee]
              exact he
            exact Nat.le_of_eq (keys_nodup_mem_unique cs hnd t e.2 c he' hmem)
          · exact Nat.le_of_lt (hmax e he hkey)
        omega
      have hts : t0 = t := by
        by_contra hcontra
        have := hmax (t0, mx cs) h3 (by simpa using hcontra)
        simp only at this
        omega
      subst hts
      have hall : ∀ e ∈ cs, (e.2 == mx cs) = true → e = (t0, mx cs) := by
        intro e he hpe
        have he2 : e.2 = mx cs := by simpa using hpe
        by_cases hkey : e.1 = t0
        · have : e = (e.1, e.2) := rfl
          rw [this, hkey, he2]
        · exfalso
          have := hmax e he hkey
          omega
      have hcle : cs.countP (fun e => e.2 == mx cs) ≤ 1 :=
        Nat.le_trans (countP_le_of_all_eq _ _ cs hall) (count_pair_le_one cs hnd _)
      have htie : tie = false := by
        rcases h : tie with _ | _
        · rfl
        · have := h4.mp h
          omega
      rw [htie] at hsel
      simpa using hsel

theorem keysOf_bump (cs : List (String × Nat)) (t : String) :
    keysOf (bump cs t) = if t ∈ keysOf cs then keysOf cs else keysOf cs ++ [t] := by
  induction cs with
  | nil => simp [bump, keysOf]
  | cons e rest ih =>
    simp only [keysOf, List.map_cons] at ih ⊢
    by_cases he : e.1 = t
    · have hmem2 : t ∈ e.1 :: List.map (fun z => z.1) rest :=
        List.mem_cons.mpr (Or.inl he.symm)
      rw [if_pos hmem2]
      simp [bump, he]
    · by_cases hmem : t ∈ List.map (fun z => z.1) rest
      · have hmem2 : t ∈ e.1 :: List.map (fun z => z.1) rest :=
          List.mem_cons.mpr (Or.inr hmem)
        rw [if_pos hmem2]
        simp only [bump, if_neg he, List.map_cons]
        rw [ih, if_pos hmem]
      · have hmem2 : t ∉ e.1 :: List.map (fun z => z.1) rest := by
          intro hc
          rcases List.mem_cons.mp hc with h1 | h1
          · exact he h1.symm
          · exact hmem h1
        rw [if_neg hmem2]
        simp only [bump, if_neg he, List.map_cons]
        rw [ih, if_neg hmem]
        simp

theorem nodup_keys_bump (cs : List (String × Nat)) (t : String)
    (h : (keysOf cs).Nodup) : (keysOf (bump cs t)).Nodup := by
  rw [keysOf_bump]
  by_cases hmem : t ∈ keysOf cs
  · simpa [hmem] using h
  · rw [if_neg hmem]
    refine List.nodup_append.mpr ⟨h, List.nodup_singleton t, ?_⟩
    intro a ha1 ha2
    rw [List.mem_singleton] at ha2
    subst ha2
    exact hmem ha1

theorem pos_bump (cs : List (String × Nat)) (t : String)
    (h : ∀ e ∈ cs, 0 < e.2) : ∀ e ∈ bump cs t, 0 < e.2 := by
  induction cs with
  | nil =>
    intro e he
    simp only [bump, List.mem_singleton] at he
    subst he
    simp
  | cons x rest ih =>
    intro e he
    by_cases hx : x.1 = t
    · simp only [bump, if_pos hx] at he
      rcases List.mem_cons.mp he with h1 | h1
      · rw [h1]
        simp
      · exact h e (List.mem_cons_of_mem x h1)
    · simp only [bump, if_neg hx] at he
      rcases List.mem_cons.mp he with h1 | h1
      · rw [h1]
        exact h x (List.mem_cons_self x rest)
      · exact ih (fun z hz => h z (List.mem_cons_of_mem x hz)) e h1

theorem lk_bump (cs : List (String × Nat)) (t u : String) :
    lk (bump cs t) u = if u = t then lk cs u + 1 else lk cs u := by
  induction cs with
  | nil =>
    by_cases hu : u = t
    · subst hu
      simp [bump, lk]
    · have htu : ¬t = u := fun h => hu h.symm
      simp [bump, lk, hu, htu]
  | cons e rest ih =>
    by_cases he : e.1 = t
    · by_cases hu : u = t
      · have heu : e.1 = u := by rw [he, hu]
        simp [bump, lk, he, hu, heu]
      · have heu : ¬e.1 = u := by
          rw [he]
          exact fun h => hu h.symm
        have htu : ¬t = u := fun h => hu h.symm
        simp [bump, lk, he, hu, heu, htu]
    · by_cases hb : e.1 = u
      · have hut : ¬u = t := by
          rw [← hb]
          exact he
        simp [bump, lk, he, hb, hut]
      · simp [bump, lk, he, hb, ih]

theorem keys_bump_sub (cs : List (String × Nat)) (t k : String)
    (hk : k ∈ keysOf (bump cs t)) : k ∈ keysOf cs ∨ k = t := by
  rw [keysOf_bump] at hk
  by_cases hmem : t ∈ keysOf cs
  · rw [if_pos hmem] at hk
    exact Or.inl hk
  · rw [if_neg hmem] at hk
    rcases List.mem_append.mp hk with h | h
    · exact Or.inl h
    · exact Or.inr (List.mem_singleton.mp h)

theorem tally_nodup (ev et : String → Bool) :
    ∀ (votes : List (String × String)) (cs : List (String × Nat)),
      (keysOf cs).Nodup →
      (keysOf (votes.foldl
        (fun cs v => if ev v.1 && et v.2 then bump cs v.2 else cs) cs)).Nodup := by
  intro votes
  induction votes with
  | nil => intro cs h; exact h
  | cons v rest ih =>
    intro cs h
    simp only [List.foldl_cons]
    by_cases hel : (ev v.1 && et v.2) = true
    · rw [if_pos hel]
      exact ih _ (nodup_keys_bump cs v.2 h)
    · rw [if_neg hel]
      exact ih _ h

theorem tally_pos (ev et : String → Bool) :
    ∀ (votes : List (String × String)) (cs : List (String × Nat)),
      (∀ e ∈ cs, 0 < e.2) →
      ∀ e ∈ votes.foldl
        (fun cs v => if ev v.1 && et v.2 then bump cs v.2 else cs) cs, 0 < e.2 := by
  intro votes
  induction votes with
  | nil => intro cs h; exact h
  | cons v rest ih =>
    intro cs h
    simp only [List.foldl_cons]
    by_cases hel : (ev v.1 && et v.2) = true
    · rw [if_pos hel]
      exact ih _ (pos_bump cs v.2 h)
    · rw [if_neg hel]
      exact ih _ h

theorem tally_keys_elig (ev et : String → Bool) :
    ∀ (votes : List (String × String)) (cs : List (String × Nat)),
      (∀ k ∈ keysOf cs, et k = true) →
      ∀ k ∈ keysOf (votes.foldl
        (fun cs v => if ev v.1 && et v.2 then bump cs v.2 else cs) cs), et k = true := by
  intro votes
  induction votes with
  | nil => intro cs h; exact h
  | cons v rest ih =>
    intro cs h
    simp only [List.foldl_cons]
    by_cases hel : (ev v.1 && et v.2) = true
    · rw [if_pos hel]
      apply ih
      intro k hk
      rcases keys_bump_sub cs v.2 k hk with hk1 | hk1
      · exact h k hk1
      · rw [hk1]
        exact (Bool.and_eq_true _ _).mp hel |>.2
    · rw [if_neg hel]
      exact ih _ h

theorem lk_tally (ev et : String → Bool) :
    ∀ (votes : List (String × String)) (cs : List (String × Nat)) (t : String),
      lk (votes.foldl
        (fun cs v => if ev v.1 && et v.2 then bump cs v.2 else cs) cs) t
      = lk cs t
        + (votes.filter (fun v => (ev v.1 && et v.2) && (v.2 == t))).length := by
  intro votes
  induction votes with
  | nil => intro cs t; simp
  | cons v rest ih =>
    intro cs t
    simp only [List.foldl_cons, List.filter_cons]
    by_cases hel : (ev v.1 && et v.2) = true
    · rw [if_pos hel]
      rw [ih (bump cs v.2) t, lk_bump]
      by_cases hv : v.2 = t
      · have : ((ev v.1 && et v.2) && (v.2 == t)) = true := by
          rw [hel]
          simp [hv]
        rw [if_pos this, if_pos hv.symm]
        simp only [List.length_cons]
        omega
      · have : ((ev v.1 && et v.2) && (v.2 == t)) = false := by
          simp [hv]
        rw [this]
        have htv : ¬t = v.2 := fun h => hv h.symm
        rw [if_neg htv]
        simp
    · rw [if_neg hel]
      have : ((ev v.1 && et v.2) && (v.2 == t)) = false := by
        rcases hb : (ev v.1 && et v.2) with _ | _
        · simp
        · exact absurd hb hel
      rw [this]
      simp only [Bool.false_eq_true, if_false]
      exact ih cs t

theorem dayCounts_pos (room : Room) : ∀ e ∈ dayCounts room, 0 < e.2 := by
  have := tally_pos (fun v => (alivePlayers room).any fun p => p.id == v)
      (fun t => (alivePlayers room).any fun p => p.id == t) room.dayVotes []
      (by intro e he; simp at he)
  simpa [dayCounts, tallyVotes] using this

theorem dayCounts_nodup (room : Room) : (keysOf (dayCounts room)).Nodup := by
  have := tally_nodup (fun v => (alivePlayers room).any fun p => p.id == v)
      (fun t => (alivePlayers room).any fun p => p.id == t) room.dayVotes []
      (by simp [keysOf])
  simpa [dayCounts, tallyVotes] using this

theorem dayCounts_keys_alive (room : Room) :
    ∀ k ∈ keysOf (dayCounts room), ((alivePlayers room).any fun p => p.id == k) = true := by
  have := tally_keys_elig (fun v => (alivePlayers room).any fun p => p.id == v)
      (fun t => (alivePlayers room).any fun p => p.id == t) room.dayVotes []
      (by intro k hk; simp [keysOf] at hk)
  intro k hk
  apply this
  simpa [dayCounts, tallyVotes] using hk

theorem mafiaCounts_pos (room : Room) : ∀ e ∈ mafiaCounts room, 0 < e.2 := by
  have := tally_pos
      (fun v => ((alivePlayers room).filter (fun p => p.role == some Role.MAFIA)).any
        fun p => p.id == v)
      (fun t => (alivePlayers room).any fun p => p.id == t) room.night.mafiaVotes []
      (by intro e he; simp at he)
  simpa [mafiaCounts, tallyVotes] using this

theorem mafiaCounts_nodup (room : Room) : (keysOf (mafiaCounts room)).Nodup := by
  have := tally_nodup
      (fun v => ((alivePlayers room).filter (fun p => p.role == some Role.MAFIA)).any
        fun p => p.id == v)
      (fun t => (alivePlayers room).any fun p => p.id == t) room.night.mafiaVotes []
      (by simp [keysOf])
  simpa [mafiaCounts, tallyVotes] using this

theorem mafiaCounts_keys_alive (room : Room) :
    ∀ k ∈ keysOf (mafiaCounts room),
      ((alivePlayers room).any fun p => p.id == k) = true := by
  have := tally_keys_elig
      (fun v => ((alivePlayers room).filter (fun p => p.role == some Role.MAFIA)).any
        fun p => p.id == v)
      (fun t => (alivePlayers room).any fun p => p.id == t) room.night.mafiaVotes []
      (by intro k hk; simp [keysOf] at hk)
  intro k hk
  apply this
  simpa [mafiaCounts, tallyVotes] using hk

theorem keys_alive_ne_empty (room : Room) (hids : ∀ p ∈ room.players, p.id ≠ "")
    (k : String) (hk : ((alivePlayers room).any fun p => p.id == k) = true) : k ≠ "" := by
  rw [List.any_eq_true] at hk
  obtain ⟨p, hp, hpk⟩ := hk
  have hpid : p.id = k := by simpa using hpk
  have hpmem : p ∈ room.players := (List.mem_filter.mp hp).1
  intro hke
  exact hids p hpmem (by rw [hpid, hke])

/-- C1: for both the day-elimination tally and the mafia night-kill
tally, the outcome is some candidate exactly when that candidate holds
the strictly highest positive count; with no positive count or a tie at
the top the outcome is no result, and on a no-result day no player
record changes (no elimination). -/
theorem claim_C1_vote_resolution (room : Room)
    (hids : ∀ p ∈ room.players, p.id ≠ "") (t : String) :
    (dayVoteTarget room = some t ↔ uniqueTop (dayCounts room) t) ∧
    (resolveMafiaKillTarget room = some t ↔ uniqueTop (mafiaCounts room) t) ∧
    ((∀ u, ¬uniqueTop (dayCounts room) u) →
      (resolveDayVoting room).players = room.players ∧
      (resolveDayVoting room).announcement
        = "Voting ended: No one was eliminated (tie or no votes).") := by
  have hiffD : ∀ u, dayVoteTarget room = some u ↔ uniqueTop (dayCounts room) u := by
    intro u
    unfold dayVoteTarget
    exact selectBest_eq_some_iff (dayCounts room) (dayCounts_pos room)
      (dayCounts_nodup room)
      (fun k hk => keys_alive_ne_empty room hids k (dayCounts_keys_alive room k hk)) u
  refine ⟨hiffD t, ?_, ?_⟩
  · unfold resolveMafiaKillTarget
    exact selectBest_eq_some_iff (mafiaCounts room) (mafiaCounts_pos room)
      (mafiaCounts_nodup room)
      (fun k hk => keys_alive_ne_empty room hids k (mafiaCounts_keys_alive room k hk)) t
  · intro hnone
    have hsel : dayVoteTarget room = none := by
      cases hcase : dayVoteTarget room with
      | none => rfl
      | some u => exact absurd ((hiffD u).mp hcase) (hnone u)
    unfold resolveDayVoting
    rw [hsel]
    exact ⟨rfl, rfl⟩

/-- Witness for C1: a concrete six-player voting room in which three
votes land on the mafia player c and one on f, so c is the unique top
candidate; and a concrete two-way tie, which yields no elimination. -/
theorem claim_C1_witness :
    dayVoteTarget
      { gameRoom6 Phase.DAY_VOTING with
        dayVotes := [("a", "c"), ("b", "c"), ("e", "c"), ("f", "f")] } = some "c" ∧
    (resolveDayVoting
      { gameRoom6 Phase.DAY_VOTING with
        dayVotes := [("a", "c"), ("b", "f"), ("e", "c"), ("f", "f")] }).players
      = (gameRoom6 Phase.DAY_VOTING).players := by
  constructor
  · exact (claim_C1_vote_resolution
      { gameRoom6 Phase.DAY_VOTING with
        dayVotes := [("a", "c"), ("b", "c"), ("e", "c"), ("f", "f")] }
      (by decide) "c").1.mpr ⟨3, by decide, by decide⟩
  · have hcs : dayCounts
        { gameRoom6 Phase.DAY_VOTING with
          dayVotes := [("a", "c"), ("b", "f"), ("e", "c"), ("f", "f")] }
        = [("c", 2), ("f", 2)] := by decide
    have hnone : ∀ u, ¬uniqueTop (dayCounts
        { gameRoom6 Phase.DAY_VOTING with
          dayVotes := [("a", "c"), ("b", "f"), ("e", "c"), ("f", "f")] }) u := by
      intro u hu
      obtain ⟨c, hmem, hmax⟩ := hu
      rw [hcs] at hmem hmax
      simp only [List.mem_cons, List.not_mem_nil, or_false] at hmem
      rcases hmem with h | h
      · have hu1 : u = "c" := (Prod.ext_iff.mp h).1
        have hc1 : c = 2 := (Prod.ext_iff.mp h).2
        have hlt := hmax ("f", 2) (by simp) (by rw [hu1]; decide)
        rw [hc1] at hlt
        exact absurd hlt (by decide)
      · have hu1 : u = "f" := (Prod.ext_iff.mp h).1
        have hc1 : c = 2 := (Prod.ext_iff.mp h).2
        have hlt := hmax ("c", 2) (by simp) (by rw [hu1]; decide)
        rw [hc1] at hlt
        exact absurd hlt (by decide)
    exact ((claim_C1_vote_resolution
      { gameRoom6 Phase.DAY_VOTING with
        dayVotes := [("a", "c"), ("b", "f"), ("e", "c"), ("f", "f")] }
      (by decide) "c").2.2 hnone).1

theorem lkVote_setVote (vs : List (String × String)) (k v u : String) :
    lkVote (setVote vs k v) u = if u = k then some v else lkVote vs u := by
  induction vs with
  | nil =>
    by_cases hu : u = k
    · subst hu
      simp [setVote, lkVote]
    · have hku : ¬k = u := fun h => hu h.symm
      simp [setVote, lkVote, hu, hku]
  | cons e rest ih =>
    by_cases he : e.1 = k
    · by_cases hu : u = k
      · have heu : e.1 = u := by rw [he, hu]
        simp [setVote, lkVote, he, hu, heu]
      · have hku : ¬k = u := fun h => hu h.symm
        have heu : ¬e.1 = u := by
          rw [he]
          exact hku
        simp [setVote, lkVote, he, hu, hku, heu]
    · by_cases hb : e.1 = u
      · have hut : ¬u = k := by
          rw [← hb]
          exact he
        simp [setVote, lkVote, he, hb, hut]
      · simp [setVote, lkVote, he, hb, ih]

theorem votesKeys_setVote (vs : List (String × String)) (k v : String) :
    votesKeys (setVote vs k v)
      = if k ∈ votesKeys vs then votesKeys vs else votesKeys vs ++ [k] := by
  induction vs with
  | nil => simp [setVote, votesKeys]
  | cons e rest ih =>
    simp only [votesKeys, List.map_cons] at ih ⊢
    by_cases he : e.1 = k
    · have hmem2 : k ∈ e.1 :: List.map (fun z => z.1) rest :=
        List.mem_cons.mpr (Or.inl he.symm)
      rw [if_pos hmem2]
      simp [setVote, he]
    · by_cases hmem : k ∈ List.map (fun z => z.1) rest
      · have hmem2 : k ∈ e.1 :: List.map (fun z => z.1) rest :=
          List.mem_cons.mpr (Or.inr hmem)
        rw [if_pos hmem2]
        simp only [setVote, if_neg he, List.map_cons]
        rw [ih, if_pos hmem]
      · have hmem2 : k ∉ e.1 :: List.map (fun z => z.1) rest := by
          intro hc
          rcases List.mem_cons.mp hc with h1 | h1
          · exact he h1.symm
          · exact hmem h1
        rw [if_neg hmem2]
        simp only [setVote, if_neg he, List.map_cons]
        rw [ih, if_neg hmem]
        simp

theorem nodup_votesKeys_setVote (vs : List (String × String)) (k v : String)
    (h : (votesKeys vs).Nodup) : (votesKeys (setVote vs k v)).Nodup := by
  rw [votesKeys_setVote]
  by_cases hmem : k ∈ votesKeys vs
  · simpa [hmem] using h
  · rw [if_neg hmem]
    refine List.nodup_append.mpr ⟨h, List.nodup_singleton k, ?_⟩
    intro a ha1 ha2
    rw [List.mem_singleton] at ha2
    subst ha2
    exact hmem ha1

theorem castVote_ok_shape (room : Room) (sid tid : String)
    (h : (castVote room sid tid).2 = Res.ok) :
    (castVote room sid tid).1 = { room with dayVotes := setVote room.dayVotes sid tid } := by
  revert h
  unfold castVote
  repeat' split
  all_goals intro h
  all_goals first | rfl | (exfalso; simp at h)

theorem countP_fst_eq_count_keys (vs : List (String × String)) (sid : String) :
    vs.countP (fun v => v.1 == sid) = (votesKeys vs).count sid := by
  induction vs with
  | nil => rfl
  | cons e rest ih =>
    simp only [votesKeys, List.map_cons, List.countP_cons, List.count_cons] at ih ⊢
    rw [ih]

/-- C6: a voter's recorded day vote is a latest-write-wins map entry
(one entry per distinct voter), and each tally count equals the number
of recorded votes for that target whose voter and target pass the
eligibility checks at resolution time; ineligible votes contribute
nothing. -/
theorem claim_C6_one_vote_per_voter (room : Room) (sid tid t : String) :
    ((castVote room sid tid).2 = Res.ok →
      lkVote ((castVote room sid tid).1).dayVotes sid = some tid ∧
      (∀ u, u ≠ sid →
        lkVote ((castVote room sid tid).1).dayVotes u = lkVote room.dayVotes u) ∧
      ((votesKeys room.dayVotes).Nodup →
        (votesKeys ((castVote room sid tid).1).dayVotes).Nodup)) ∧
    ((votesKeys room.dayVotes).Nodup →
      room.dayVotes.countP (fun v => v.1 == sid) ≤ 1) ∧
    (lk (dayCounts room) t
      = (room.dayVotes.filter (fun v =>
          (((alivePlayers room).any fun p => p.id == v.1)
            && ((alivePlayers room).any fun p => p.id == v.2)) && (v.2 == t))).length) ∧
    (lk (mafiaCounts room) t
      = (room.night.mafiaVotes.filter (fun v =>
          ((((alivePlayers room).filter (fun p => p.role == some Role.MAFIA)).any
              fun p => p.id == v.1)
            && ((alivePlayers room).any fun p => p.id == v.2)) && (v.2 == t))).length) := by
  refine ⟨?_, ?_, ?_, ?_⟩
  · intro h
    rw [castVote_ok_shape room sid tid h]
    refine ⟨?_, ?_, ?_⟩
    · show lkVote (setVote room.dayVotes sid tid) sid = some tid
      rw [lkVote_setVote]
      simp
    · intro u hu
      show lkVote (setVote room.dayVotes sid tid) u = lkVote room.dayVotes u
      rw [lkVote_setVote, if_neg hu]
    · intro hnd
      show (votesKeys (setVote room.dayVotes sid tid)).Nodup
      exact nodup_votesKeys_setVote room.dayVotes sid tid hnd
  · intro hnd
    rw [countP_fst_eq_count_keys]
    exact List.nodup_iff_count_le_one.mp hnd sid
  · have happ := lk_tally (fun v => (alivePlayers room).any fun p => p.id == v)
      (fun u => (alivePlayers room).any fun p => p.id == u) room.dayVotes [] t
    have h0 : lk (dayCounts room) t
        = lk (room.dayVotes.foldl
            (fun cs v => if ((alivePlayers room).any fun p => p.id == v.1)
                && ((alivePlayers room).any fun p => p.id == v.2)
              then bump cs v.2 else cs) []) t := by
      simp [dayCounts, tallyVotes]
    rw [h0, happ]
    simp [lk]
  · have happ := lk_tally
      (fun v => ((alivePlayers room).filter (fun p => p.role == some Role.MAFIA)).any
        fun p => p.id == v)
      (fun u => (alivePlayers room).any fun p => p.id == u) room.night.mafiaVotes [] t
    have h0 : lk (mafiaCounts room) t
        = lk (room.night.mafiaVotes.foldl
            (fun cs v => if (((alivePlayers room).filter
                  (fun p => p.role == some Role.MAFIA)).any fun p => p.id == v.1)
                && ((alivePlayers room).any fun p => p.id == v.2)
              then bump cs v.2 else cs) []) t := by
      simp [mafiaCounts, tallyVotes]
    rw [h0, happ]
    simp [lk]

/-- Witness for C6: a concrete voter overwrites their first choice and
the tally counts one vote for the new target. -/
theorem claim_C6_witness :
    lkVote ((castVote
      { gameRoom6 Phase.DAY_VOTING with dayVotes := [("a", "c")] }
      "a" "f").1).dayVotes "a" = some "f" ∧
    ({ gameRoom6 Phase.DAY_VOTING with
        dayVotes := [("a", "c")] } : Room).dayVotes.countP
      (fun v => v.1 == "a") ≤ 1 :=
  ⟨((claim_C6_one_vote_per_voter
      { gameRoom6 Phase.DAY_VOTING with dayVotes := [("a", "c")] }
      "a" "f" "c").1 (by decide)).1,
   (claim_C6_one_vote_per_voter
      { gameRoom6 Phase.DAY_VOTING with dayVotes := [("a", "c")] }
      "a" "f" "c").2.1 (by decide)⟩

/-- C8: whenever a handler rejects a request with an error, the room it
returns is exactly the room it was given — no field of the room or of
any player is mutated on a validation failure. -/
theorem claim_C8_no_mutation_on_error (room : Room) (sid tid msg : String) :
    ((joinRoom room sid tid msg).2 = Res.error msg → (joinRoom room sid tid msg).1 = room) ∧
    (∀ (rand : Nat → Nat) (now : Nat),
      (startGame room sid rand now).2 = Res.error msg →
        (startGame room sid rand now).1 = room) ∧
    ((castVote room sid tid).2 = Res.error msg → (castVote room sid tid).1 = room) ∧
    ((doctorProtect room sid tid).2 = Res.error msg →
      (doctorProtect room sid tid).1 = room) ∧
    ((mafiaVoteKill room sid tid).2 = Res.error msg →
      (mafiaVoteKill room sid tid).1 = room) ∧
    ((detectiveCheck room sid tid).2 = Res.error msg →
      (detectiveCheck room sid tid).1 = room) ∧
    ((publicChat room sid tid).2 = Res.error msg → (publicChat room sid tid).1 = room) ∧
    ((mafiaChat room sid tid).2 = Res.error msg → (mafiaChat room sid tid).1 = room) := by
  refine ⟨?_, ?_, ?_, ?_, ?_, ?_, ?_, ?_⟩
  · unfold joinRoom
    repeat' split
    all_goals intro h
    all_goals first | rfl | (exfalso; simp at h)
  · intro rand now
    unfold startGame
    repeat' split
    all_goals intro h
    all_goals first | rfl | (exfalso; simp at h)
  · unfold castVote
    repeat' split
    all_goals intro h
    all_goals first | rfl | (exfalso; simp at h)
  · unfold doctorProtect
    repeat' split
    all_goals intro h
    all_goals first | rfl | (exfalso; simp at h)
  · unfold mafiaVoteKill
    repeat' split
    all_goals intro h
    all_goals first | rfl | (exfalso; simp at h)
  · unfold detectiveCheck
    repeat' split
    all_goals intro h
    all_goals first | rfl | (exfalso; simp at h)
  · unfold publicChat
    repeat' split
    all_goals intro h
    all_goals first | rfl | (exfalso; simp at h)
  · unfold mafiaChat
    repeat' split
    all_goals intro h
    all_goals first | rfl | (exfalso; simp at h)

/-- Witness for C8: a day vote cast outside the voting phase fails and
leaves the concrete room unchanged. -/
theorem claim_C8_witness :
    (castVote (gameRoom6 Phase.DAY_DISCUSSION) "a" "c").2
      = Res.error "Not voting phase." ∧
    (castVote (gameRoom6 Phase.DAY_DISCUSSION) "a" "c").1
      = gameRoom6 Phase.DAY_DISCUSSION :=
  ⟨by decide,
   (claim_C8_no_mutation_on_error (gameRoom6 Phase.DAY_DISCUSSION)
      "a" "c" "Not voting phase.").2.2.1 (by decide)⟩

theorem startPhase_used (room : Room) (phase : Phase) (seconds now : Nat) :
    (startPhase room phase seconds now).dayDetectiveUsed
      = if phase = Phase.DAY_DISCUSSION then false else room.dayDetectiveUsed := by
  unfold startPhase
  by_cases hd : phase = Phase.DAY_DISCUSSION
  · subst hd
    simp
  · rw [if_neg hd]
    by_cases h1 : phase = Phase.DAY_VOTING <;>
      by_cases h2 : phase = Phase.DOCTOR <;>
        by_cases h3 : phase = Phase.MAFIA <;>
          simp [h1, h2, h3, hd]

theorem resolveDayVoting_used (room : Room) :
    (resolveDayVoting room).dayDetectiveUsed = room.dayDetectiveUsed := by
  unfold resolveDayVoting endGame
  dsimp only
  repeat' split
  all_goals rfl

theorem resolveNightKill_used (room : Room) :
    (resolveNightKill room).dayDetectiveUsed = room.dayDetectiveUsed := by
  unfold resolveNightKill endGame
  dsimp only
  repeat' split
  all_goals rfl

theorem advancePhase_used (room : Room) (now : Nat)
    (h : room.phase ≠ Phase.ANNOUNCEMENT) :
    (advancePhase room now).dayDetectiveUsed = room.dayDetectiveUsed := by
  unfold advancePhase
  split
  · rfl
  · rfl
  · rw [startPhase_used]
    simp
  · dsimp only
    split
    · exact resolveDayVoting_used room
    · rw [startPhase_used]
      simp [resolveDayVoting_used room]
  · rw [startPhase_used]
    simp
  · rw [startPhase_used]
    simp
  · rw [startPhase_used]
    simp
  · dsimp only
    split
    · exact resolveNightKill_used room
    · rw [startPhase_used]
      simp [resolveNightKill_used room]
  · rename_i heq
    exact absurd heq h

theorem detectiveCheck_ok_shape (room : Room) (sid tid : String)
    (h : (detectiveCheck room sid tid).2 = Res.ok) :
    (detectiveCheck room sid tid).1
      = { room with dayDetectiveUsed := true, dayDetectiveTargetId := some tid } := by
  revert h
  unfold detectiveCheck
  repeat' split
  all_goals intro h
  all_goals first | rfl | (exfalso; simp at h)

theorem detectiveCheck_wrong_phase (room : Room) (sid tid : String)
    (h1 : room.phase ≠ Phase.DAY_DISCUSSION) (h2 : room.phase ≠ Phase.DAY_VOTING) :
    (detectiveCheck room sid tid).2 ≠ Res.ok := by
  have hcond : (!((room.phase == Phase.DAY_DISCUSSION)
      || (room.phase == Phase.DAY_VOTING))) = true := by
    simp [h1, h2]
  unfold detectiveCheck
  rw [if_pos hcond]
  simp

theorem detectiveCheck_used_fail (room : Room) (sid tid : String)
    (hused : room.dayDetectiveUsed = true) :
    (detectiveCheck room sid tid).1 = room ∧
    (detectiveCheck room sid tid).2 ≠ Res.ok := by
  unfold detectiveCheck
  repeat' split
  all_goals first | exact ⟨rfl, by simp⟩ | simp_all

theorem detectiveCheck_ok_facts (room : Room) (sid tid : String)
    (h : (detectiveCheck room sid tid).2 = Res.ok) :
    (room.phase = Phase.DAY_DISCUSSION ∨ room.phase = Phase.DAY_VOTING) ∧
    room.dayDetectiveUsed = false ∧
    (detectiveCheck room sid tid).1.dayDetectiveUsed = true := by
  refine ⟨?_, ?_, ?_⟩
  · by_contra hc
    push_neg at hc
    exact detectiveCheck_wrong_phase room sid tid hc.1 hc.2 h
  · rcases hu : room.dayDetectiveUsed with _ | _
    · rfl
    · exact absurd h (detectiveCheck_used_fail room sid tid hu).2
  · rw [detectiveCheck_ok_shape room sid tid h]

theorem castVote_used (room : Room) (sid tid : String) :
    (castVote room sid tid).1.dayDetectiveUsed = room.dayDetectiveUsed := by
  unfold castVote
  repeat' split
  all_goals rfl

theorem doctorProtect_used (room : Room) (sid tid : String) :
    (doctorProtect room sid tid).1.dayDetectiveUsed = room.dayDetectiveUsed := by
  unfold doctorProtect
  repeat' split
  all_goals rfl

theorem mafiaVoteKill_used (room : Room) (sid tid : String) :
    (mafiaVoteKill room sid tid).1.dayDetectiveUsed = room.dayDetectiveUsed := by
  unfold mafiaVoteKill
  repeat' split
  all_goals rfl

theorem publicChat_used (room : Room) (sid msg : String) :
    (publicChat room sid msg).1.dayDetectiveUsed = room.dayDetectiveUsed := by
  unfold publicChat
  repeat' split
  all_goals rfl

theorem mafiaChat_used (room : Room) (sid msg : String) :
    (mafiaChat room sid msg).1.dayDetectiveUsed = room.dayDetectiveUsed := by
  unfold mafiaChat
  repeat' split
  all_goals rfl

theorem joinRoom_used (room : Room) (sid tok name : String) :
    (joinRoom room sid tok name).1.dayDetectiveUsed = room.dayDetectiveUsed := by
  unfold joinRoom
  repeat' split
  all_goals rfl

theorem restoreSession_used (room : Room) (sid tok : String) :
    (restoreSession room sid tok).1.dayDetectiveUsed = room.dayDetectiveUsed := by
  unfold restoreSession
  dsimp only
  repeat' split
  all_goals rfl

theorem startGame_no_entry_unchanged (room : Room) (sid : String)
    (rand : Nat → Nat) (now : Nat)
    (h : entersDayDiscussion room (Op.startGameOp sid rand now) = false) :
    (startGame room sid rand now).1 = room := by
  unfold entersDayDiscussion at h
  dsimp only at h
  unfold startGame
  by_cases hh : (room.hostId == some sid) = true
  · by_cases hl : room.players.length < 6
    · simp [hh, hl]
    · exfalso
      rw [hh] at h
      simp [hl] at h
  · simp [hh]

theorem step_preserves_used (room : Room) (op : Op)
    (hused : room.dayDetectiveUsed = true)
    (hno : entersDayDiscussion room op = false) :
    (step room op).1.dayDetectiveUsed = true := by
  cases op with
  | castVoteOp s t => rw [step, castVote_used]; exact hused
  | doctorProtectOp s t => rw [step, doctorProtect_used]; exact hused
  | mafiaVoteKillOp s t => rw [step, mafiaVoteKill_used]; exact hused
  | detectiveCheckOp s t =>
    rw [step, (detectiveCheck_used_fail room s t hused).1]
    exact hused
  | publicChatOp s m => rw [step, publicChat_used]; exact hused
  | mafiaChatOp s m => rw [step, mafiaChat_used]; exact hused
  | joinRoomOp s tok n => rw [step, joinRoom_used]; exact hused
  | restoreSessionOp s tok => rw [step, restoreSession_used]; exact hused
  | startGameOp s rand now =>
    rw [step, startGame_no_entry_unchanged room s rand now hno]
    exact hused
  | advanceOp now =>
    rw [step, advancePhase_used room now]
    · exact hused
    · intro hp
      unfold entersDayDiscussion at hno
      rw [hp] at hno
      simp at hno

theorem detInc_le_one (o : Op) (r : Res) : detInc o r ≤ 1 := by
  cases o <;> cases r <;> simp [detInc]

theorem detInc_pos (o : Op) (r : Res) (h : detInc o r ≠ 0) :
    r = Res.ok ∧ ∃ s t, o = Op.detectiveCheckOp s t := by
  cases o <;> cases r <;> simp [detInc] at h ⊢

theorem noDDEntry_cons (room : Room) (op : Op) (ops : List Op)
    (h : noDDEntry room (op :: ops) = true) :
    entersDayDiscussion room op = false ∧ noDDEntry (step room op).1 ops = true := by
  simp only [noDDEntry, Bool.and_eq_true, Bool.not_eq_true'] at h
  exact h

theorem detSuccCount_zero (ops : List Op) :
    ∀ room : Room, room.dayDetectiveUsed = true → noDDEntry room ops = true →
      detSuccCount room ops = 0 := by
  induction ops with
  | nil => intro room _ _; rfl
  | cons op rest ih =>
    intro room hused hno
    obtain ⟨hent, hnos⟩ := noDDEntry_cons room op rest hno
    have hpres := step_preserves_used room op hused hent
    have hrest := ih (step room op).1 hpres hnos
    have hinc : detInc op (step room op).2 = 0 := by
      by_contra hc
      obtain ⟨hok, s, t, hop⟩ := detInc_pos op _ hc
      subst hop
      exact (detectiveCheck_used_fail room s t hused).2 (by simpa [step] using hok)
    simp only [detSuccCount, hinc, hrest]

theorem detSuccCount_le_one (ops : List Op) :
    ∀ room : Room, noDDEntry room ops = true → detSuccCount room ops ≤ 1 := by
  induction ops with
  | nil => intro room _; simp [detSuccCount]
  | cons op rest ih =>
    intro room hno
    obtain ⟨hent, hnos⟩ := noDDEntry_cons room op rest hno
    by_cases husd : (step room op).1.dayDetectiveUsed = true
    · have hz := detSuccCount_zero rest (step room op).1 husd hnos
      have hinc := detInc_le_one op (step room op).2
      simp only [detSuccCount, hz]
      omega
    · have hrest := ih (step room op).1 hnos
      have hinc : detInc op (step room op).2 = 0 := by
        by_contra hc
        obtain ⟨hok, s, t, hop⟩ := detInc_pos op _ hc
        subst hop
        apply husd
        have := (detectiveCheck_ok_facts room s t (by simpa [step] using hok)).2.2
        simpa [step] using this
      simp only [detSuccCount, hinc]
      omega

/-- C3: at most one investigation succeeds along any trace of operations
that never enters a fresh DAY_DISCUSSION; a success happens only in the
two day phases with the allowance unused, and consumes it; with the
allowance used, an attempt fails with no state change; the allowance is
reset exactly by phase entry into DAY_DISCUSSION, and any step that does
not enter DAY_DISCUSSION leaves a consumed allowance consumed. -/
theorem claim_C3_detective_gate :
    (∀ (room : Room) (ops : List Op),
      noDDEntry room ops = true → detSuccCount room ops ≤ 1) ∧
    (∀ (room : Room) (sid tid : String),
      (detectiveCheck room sid tid).2 = Res.ok →
        (room.phase = Phase.DAY_DISCUSSION ∨ room.phase = Phase.DAY_VOTING) ∧
        room.dayDetectiveUsed = false ∧
        (detectiveCheck room sid tid).1.dayDetectiveUsed = true) ∧
    (∀ (room : Room) (sid tid : String),
      room.dayDetectiveUsed = true →
        (detectiveCheck room sid tid).1 = room ∧
        (detectiveCheck room sid tid).2 ≠ Res.ok) ∧
    (∀ (room : Room) (phase : Phase) (seconds now : Nat),
      (startPhase room phase seconds now).dayDetectiveUsed
        = if phase = Phase.DAY_DISCUSSION then false else room.dayDetectiveUsed) ∧
    (∀ (room : Room) (op : Op),
      room.dayDetectiveUsed = true → entersDayDiscussion room op = false →
        (step room op).1.dayDetectiveUsed = true) :=
  ⟨fun room ops h => detSuccCount_le_one ops room h,
   detectiveCheck_ok_facts,
   detectiveCheck_used_fail,
   startPhase_used,
   step_preserves_used⟩

/-- Witness for C3: the detective investigates during DAY_DISCUSSION,
the phase advances to DAY_VOTING, and a second attempt the same cycle is
counted at most once along the trace; the second attempt fails on the
concrete state with the allowance consumed. -/
theorem claim_C3_witness :
    detSuccCount (gameRoom6 Phase.DAY_DISCUSSION)
      [Op.detectiveCheckOp "b" "c", Op.advanceOp 0, Op.detectiveCheckOp "b" "e"] ≤ 1 ∧
    (detectiveCheck { gameRoom6 Phase.DAY_VOTING with dayDetectiveUsed := true }
      "b" "e").1 = { gameRoom6 Phase.DAY_VOTING with dayDetectiveUsed := true } ∧
    ((detectiveCheck (gameRoom6 Phase.DAY_DISCUSSION) "b" "c").2 = Res.ok →
      (gameRoom6 Phase.DAY_DISCUSSION).dayDetectiveUsed = false) :=
  ⟨claim_C3_detective_gate.1 (gameRoom6 Phase.DAY_DISCUSSION)
      [Op.detectiveCheckOp "b" "c", Op.advanceOp 0, Op.detectiveCheckOp "b" "e"]
      (by decide),
   (claim_C3_detective_gate.2.2.1
      { gameRoom6 Phase.DAY_VOTING with dayDetectiveUsed := true } "b" "e"
      (by decide)).1,
   fun h => (claim_C3_detective_gate.2.1 (gameRoom6 Phase.DAY_DISCUSSION) "b" "c" h).2.1⟩

theorem isEmpty_false_of_ne (t : String) (h : t ≠ "") : t.isEmpty = false := by
  rcases hh : t.isEmpty with _ | _
  · rfl
  · exact absurd ((String.isEmpty_iff t).mp hh) h

theorem selectBest_mem (cs : List (String × Nat)) (hp : ∀ e ∈ cs, 0 < e.2)
    (t : String) (h : selectBest cs = some t) : t ∈ keysOf cs := by
  rcases selFold_spec cs hp with ⟨hnil, hacc⟩ | ⟨t0, h1, h2, h3, h4⟩
  · subst hnil
    simp [selectBest] at h
  · rcases hr : cs.foldl selStep (none, 0, false) with ⟨b, bc, tie⟩
    rw [hr] at h1 h2 h4
    simp only at h1 h2 h4
    subst h1
    subst h2
    have hsel : selectBest cs
        = if t0.isEmpty || (mx cs == 0) || tie then none else some t0 := by
      simp [selectBest, hr]
    rw [hsel] at h
    by_cases hc : (t0.isEmpty || (mx cs == 0) || tie) = true
    · rw [if_pos hc] at h
      exact absurd h (by simp)
    · rw [if_neg hc] at h
      have hts : t0 = t := Option.some_inj.mp h
      subst hts
      simpa [keysOf] using List.mem_map_of_mem (fun z => z.1) h3

theorem resolveMafiaKillTarget_alive (room : Room) (t : String)
    (h : resolveMafiaKillTarget room = some t) :
    ∃ p ∈ room.players, p.id = t ∧ p.alive = true := by
  have hmem : t ∈ keysOf (mafiaCounts room) :=
    selectBest_mem (mafiaCounts room) (mafiaCounts_pos room) t h
  have hany := mafiaCounts_keys_alive room t hmem
  rw [List.any_eq_true] at hany
  obtain ⟨p, hp, hpk⟩ := hany
  refine ⟨p, (List.mem_filter.mp hp).1, by simpa using hpk, ?_⟩
  have := (List.mem_filter.mp hp).2
  simpa using this

theorem find_first_of_nodup (l : List Player)
    (hnd : (l.map (fun q => q.id)).Nodup) (p : Player) (hp : p ∈ l) :
    l.find? (fun q => q.id == p.id) = some p := by
  induction l with
  | nil => simp at hp
  | cons q rest ih =>
    have hnd' : q.id ∉ rest.map (fun z => z.id) ∧ (rest.map (fun z => z.id)).Nodup := by
      simpa using hnd
    by_cases hq : (q.id == p.id) = true
    · rw [List.find?_cons_of_pos (p := fun (z : Player) => z.id == p.id) _ hq]
      rcases List.mem_cons.mp hp with h1 | h1
      · rw [h1]
      · exfalso
        apply hnd'.1
        have : q.id = p.id := by simpa using hq
        rw [this]
        exact List.mem_map_of_mem (fun z => z.id) h1
    · rw [List.find?_cons_of_neg (p := fun (z : Player) => z.id == p.id) _ hq]
      rcases List.mem_cons.mp hp with h1 | h1
      · exfalso
        apply hq
        rw [h1]
        simp
      · exact ih hnd'.2 h1

theorem killById_find_other (l : List Player) (t u : String) (hne : u ≠ t) :
    (killById l t).find? (fun q => q.id == u) = l.find? (fun q => q.id == u) := by
  induction l with
  | nil => rfl
  | cons q rest ih =>
    by_cases hq : q.id = t
    · simp only [killById, if_pos hq]
      have hqu : (q.id == u) = false := by
        simp only [beq_eq_false_iff_ne, ne_eq]
        rw [hq]
        exact fun hh => hne hh.symm
      rw [List.find?_cons_of_neg (p := fun (z : Player) => z.id == u) _ (by simpa using hqu),
        List.find?_cons_of_neg (p := fun (z : Player) => z.id == u) _ (by simpa using hqu)]
    · simp only [killById, if_neg hq]
      by_cases hqu : (q.id == u) = true
      · rw [List.find?_cons_of_pos (p := fun (z : Player) => z.id == u) _ hqu,
          List.find?_cons_of_pos (p := fun (z : Player) => z.id == u) _ hqu]
      · rw [List.find?_cons_of_neg (p := fun (z : Player) => z.id == u) _ hqu,
          List.find?_cons_of_neg (p := fun (z : Player) => z.id == u) _ hqu]
        exact ih

theorem killById_find_self (l : List Player)
    (hnd : (l.map (fun q => q.id)).Nodup) (p : Player) (hp : p ∈ l) :
    (killById l p.id).find? (fun q => q.id == p.id) = some { p with alive := false } := by
  induction l with
  | nil => simp at hp
  | cons q rest ih =>
    have hnd' : q.id ∉ rest.map (fun z => z.id) ∧ (rest.map (fun z => z.id)).Nodup := by
      simpa using hnd
    by_cases hq : q.id = p.id
    · simp only [killById, if_pos hq]
      have hqp : q = p := by
        rcases List.mem_cons.mp hp with h1 | h1
        · exact h1.symm
        · exfalso
          apply hnd'.1
          rw [hq]
          exact List.mem_map_of_mem (fun z => z.id) h1
      rw [hqp]
      rw [List.find?_cons_of_pos (p := fun (z : Player) => z.id == p.id) _ (by simp)]
    · simp only [killById, if_neg hq]
      rw [List.find?_cons_of_neg (p := fun (z : Player) => z.id == p.id) _ (by simpa using hq)]
      rcases List.mem_cons.mp hp with h1 | h1
      · exact absurd (by rw [h1] : q.id = p.id) hq
      · exact ih hnd'.2 h1

theorem checkWin_congr_players (r1 r2 : Room) (h : r1.players = r2.players) :
    checkWin r1 = checkWin r2 := by
  unfold checkWin aliveCounts alivePlayers
  rw [h]

/-- C4: night resolution first resolves the mafia vote; with no kill
target nobody dies; a kill target equal to the doctor's recorded
protection is saved with no player record changed; otherwise the target
(and only the target) is flipped to dead and, when the game continues,
the announcement reveals the target's role.  Protection of anyone other
than the kill target never prevents the kill. -/
theorem claim_C4_night_resolution (room : Room)
    (hids : ∀ p ∈ room.players, p.id ≠ "")
    (hnd : (room.players.map (fun q => q.id)).Nodup) :
    (resolveMafiaKillTarget room = none →
      resolveNightKill room
        = { room with
            announcement := "Night result: Mafia did not finalize a kill. No one died." }) ∧
    (∀ t, resolveMafiaKillTarget room = some t →
      room.night.doctorTargetId = some t →
      ∃ p ∈ room.players, p.id = t ∧ p.alive = true ∧
        resolveNightKill room
          = { room with
              announcement :=
                "Night result: " ++ p.name ++ " was attacked but saved by Doctor." }) ∧
    (∀ t, resolveMafiaKillTarget room = some t →
      room.night.doctorTargetId ≠ some t →
      ∃ p ∈ room.players, p.id = t ∧ p.alive = true ∧
        (resolveNightKill room).players.find? (fun q => q.id == t)
          = some { p with alive := false } ∧
        (∀ u, u ≠ t → (resolveNightKill room).players.find? (fun q => q.id == u)
          = room.players.find? (fun q => q.id == u)) ∧
        (checkWin { room with players := killById room.players t } = none →
          (resolveNightKill room).announcement
            = "Night result: " ++ p.name ++ " was killed. Role: " ++ roleText p.role)) := by
  refine ⟨?_, ?_, ?_⟩
  · intro h
    unfold resolveNightKill
    rw [h]
    simp [optTruthy]
  · intro t hkill hdoc
    obtain ⟨p, hpmem, hpid, hpalive⟩ := resolveMafiaKillTarget_alive room t hkill
    have hte : t ≠ "" := by
      have := hids p hpmem
      rw [hpid] at this
      exact this
    have hfind : room.players.find? (fun q => q.id == t) = some p := by
      have := find_first_of_nodup room.players hnd p hpmem
      rw [hpid] at this
      exact this
    refine ⟨p, hpmem, hpid, hpalive, ?_⟩
    unfold resolveNightKill
    rw [hkill, hdoc]
    simp [optTruthy, isEmpty_false_of_ne t hte, hfind, hpalive]
  · intro t hkill hdoc
    obtain ⟨p, hpmem, hpid, hpalive⟩ := resolveMafiaKillTarget_alive room t hkill
    have hte : t ≠ "" := by
      have := hids p hpmem
      rw [hpid] at this
      exact this
    have hfind : room.players.find? (fun q => q.id == t) = some p := by
      have := find_first_of_nodup room.players hnd p hpmem
      rw [hpid] at this
      exact this
    have hcond : (optTruthy room.night.doctorTargetId
        && (room.night.doctorTargetId == some t)) = false := by
      rcases hdt : room.night.doctorTargetId with _ | d
      · simp [optTruthy]
      · have hdne : ¬(d = t) := by
          intro hh
          apply hdoc
          rw [hdt, hh]
        simp [hdne]
    have hT : optTruthy (some t) = true := by
      simp [optTruthy, isEmpty_false_of_ne t hte]
    have hplayers : (resolveNightKill room).players = killById room.players t ∧
        (checkWin { room with players := killById room.players t } = none →
          (resolveNightKill room).announcement
            = "Night result: " ++ p.name ++ " was killed. Role: " ++ roleText p.role) := by
      obtain ⟨cw, hcw⟩ : ∃ cw, checkWin
          { room with
            players := killById room.players t,
            announcement := "Night result: " ++ p.name ++ " was killed. Role: "
              ++ roleText p.role } = cw := ⟨_, rfl⟩
      rcases cw with _ | w
      · have hred : resolveNightKill room
            = { room with
                players := killById room.players t,
                announcement := "Night result: " ++ p.name ++ " was killed. Role: "
                  ++ roleText p.role } := by
          unfold resolveNightKill
          rw [hkill]
          simp [hT, hfind, hpalive, hcond, hcw]
        rw [hred]
        exact ⟨rfl, fun _ => rfl⟩
      · have hred : resolveNightKill room
            = endGame
                { room with
                  players := killById room.players t,
                  announcement := "Night result: " ++ p.name ++ " was killed. Role: "
                    ++ roleText p.role } w := by
          unfold resolveNightKill
          rw [hkill]
          simp [hT, hfind, hpalive, hcond, hcw]
        rw [hred]
        refine ⟨rfl, ?_⟩
        intro hnone
        exfalso
        have := checkWin_congr_players
          { room with
            players := killById room.players t,
            announcement := "Night result: " ++ p.name ++ " was killed. Role: "
              ++ roleText p.role }
          { room with players := killById room.players t } rfl
        rw [hcw, hnone] at this
        exact absurd this (by simp)
    refine ⟨p, hpmem, hpid, hpalive, ?_, ?_, hplayers.2⟩
    · rw [hplayers.1, ← hpid]
      exact killById_find_self room.players hnd p hpmem
    · intro u hu
      rw [hplayers.1]
      exact killById_find_other room.players t u hu

/-- Witness for C4: in the concrete room nightRoomC4 the mafia kill target is
"e", the doctor protected "f" (not "e"), and resolving the night kills exactly
player "e", leaving everyone else untouched. -/
theorem claim_C4_witness :
    resolveMafiaKillTarget nightRoomC4 = some "e" ∧
    nightRoomC4.night.doctorTargetId ≠ some "e" ∧
    (∃ p ∈ nightRoomC4.players, p.id = "e" ∧ p.alive = true ∧
      (resolveNightKill nightRoomC4).players.find? (fun q => q.id == "e")
        = some { p with alive := false } ∧
      (∀ u, u ≠ "e" → (resolveNightKill nightRoomC4).players.find? (fun q => q.id == u)
        = nightRoomC4.players.find? (fun q => q.id == u)) ∧
      (checkWin { nightRoomC4 with players := killById nightRoomC4.players "e" } = none →
        (resolveNightKill nightRoomC4).announcement
          = "Night result: " ++ p.name ++ " was killed. Role: " ++ roleText p.role)) :=
  ⟨by decide, by decide,
    (claim_C4_night_resolution nightRoomC4 (by decide) (by decide)).2.2 "e"
      (by decide) (by decide)⟩

/-- Rebinding a session id never changes any durable field (token, name,
role, alive) of any player. -/
theorem rebindFirst_fields (l : List Player) (tok sid : String) :
    (rebindFirst l tok sid).map (fun p => (p.token, p.name, p.role, p.alive))
      = l.map (fun p => (p.token, p.name, p.role, p.alive)) := by
  induction l with
  | nil => rfl
  | cons p rest ih =>
    by_cases hp : p.token = tok
    · simp [rebindFirst, hp]
    · simp [rebindFirst, hp, ih]

/-- If a player matches the token, after rebinding the first token match
is that same player carrying the new session id. -/
theorem rebindFirst_find (l : List Player) (tok sid : String) (q : Player)
    (h : l.find? (fun p => p.token == tok) = some q) :
    (rebindFirst l tok sid).find? (fun p => p.token == tok)
      = some { q with id := sid } := by
  induction l with
  | nil => simp at h
  | cons p rest ih =>
    by_cases hp : p.token = tok
    · have hq : p = q := by
        rw [List.find?_cons_of_pos _ (by simp [hp])] at h
        exact Option.some.inj h
      subst hq
      simp only [rebindFirst, if_pos hp]
      rw [List.find?_cons_of_pos _ (by simp [hp])]
    · rw [List.find?_cons_of_neg _ (by simp [hp])] at h
      simp only [rebindFirst, if_neg hp]
      rw [List.find?_cons_of_neg _ (by simp [hp])]
      exact ih h

/-- C7: restore_session with a valid durable token rebinds the matching
host or player identity to the new connection without changing any
player durable token, alive status, role, or name; an empty or
unmatched token, or an unknown room code, fails without side effects. -/
theorem claim_C7_restore_session (room : Room) (reg : List (String × Room))
    (sid rawToken rawCode : String) :
    ((jsTrim rawToken).isEmpty = true →
      restoreSession room sid rawToken = (room, Res.error "Invalid token.")) ∧
    ((jsTrim rawToken).isEmpty = false →
      (room.hostToken == (jsTrim rawToken)) = true →
      restoreSession room sid rawToken
        = ({ room with hostId := some sid }, Res.ok)) ∧
    ((jsTrim rawToken).isEmpty = false →
      (room.hostToken == (jsTrim rawToken)) = false →
      ∀ q, room.players.find? (fun p => p.token == (jsTrim rawToken)) = some q →
        restoreSession room sid rawToken
          = ({ room with players := rebindFirst room.players (jsTrim rawToken) sid },
             Res.ok) ∧
        (rebindFirst room.players (jsTrim rawToken) sid).map
            (fun p => (p.token, p.name, p.role, p.alive))
          = room.players.map (fun p => (p.token, p.name, p.role, p.alive)) ∧
        (rebindFirst room.players (jsTrim rawToken) sid).find?
            (fun p => p.token == (jsTrim rawToken))
          = some { q with id := sid }) ∧
    ((jsTrim rawToken).isEmpty = false →
      (room.hostToken == (jsTrim rawToken)) = false →
      room.players.find? (fun p => p.token == (jsTrim rawToken)) = none →
      restoreSession room sid rawToken = (room, Res.error "Session not found.")) ∧
    (findRoom reg (((jsTrim rawCode).toUpper)) = none →
      restoreSessionReg reg rawCode sid rawToken
        = (reg, Res.error "Room not found.")) := by
  refine ⟨?_, ?_, ?_, ?_, ?_⟩
  · intro h
    unfold restoreSession
    simp [h]
  · intro h1 h2
    unfold restoreSession
    simp [h1, h2]
  · intro h1 h2 q hq
    refine ⟨?_, rebindFirst_fields room.players (jsTrim rawToken) sid,
      rebindFirst_find room.players (jsTrim rawToken) sid q hq⟩
    unfold restoreSession
    simp [h1, h2, hq]
  · intro h1 h2 h3
    unfold restoreSession
    simp [h1, h2, h3]
  · intro h
    unfold restoreSessionReg
    simp [h]

/-- Witness for C7: the raw token " tb " (trimmed to "tb") matches player
"b" of the six-player room, so restore_session succeeds, rebinds that
player to session "s2", and leaves every durable field untouched. -/
theorem claim_C7_witness :
    restoreSession (gameRoom6 Phase.DAY_DISCUSSION) "s2" " tb "
      = ({ gameRoom6 Phase.DAY_DISCUSSION with
           players := rebindFirst (gameRoom6 Phase.DAY_DISCUSSION).players
             (jsTrim " tb ") "s2" },
         Res.ok) ∧
    (rebindFirst (gameRoom6 Phase.DAY_DISCUSSION).players (jsTrim " tb ") "s2").map
        (fun p => (p.token, p.name, p.role, p.alive))
      = (gameRoom6 Phase.DAY_DISCUSSION).players.map
          (fun p => (p.token, p.name, p.role, p.alive)) ∧
    (rebindFirst (gameRoom6 Phase.DAY_DISCUSSION).players (jsTrim " tb ") "s2").find?
        (fun p => p.token == (jsTrim " tb "))
      = some { id := "s2", token := "tb", name := "B",
               role := some Role.DETECTIVE, alive := true } :=
  (claim_C7_restore_session (gameRoom6 Phase.DAY_DISCUSSION) [] "s2" " tb " "X").2.2.1
    (by decide) (by decide)
    { id := "b", token := "tb", name := "B", role := some Role.DETECTIVE, alive := true }
    (by decide)

/-- C2: counterexample. The start_game handler checks only that the
caller is the host and that at least 6 players joined — it never checks
that the room is still in LOBBY. A second start_game issued by the host
during DAY_DISCUSSION therefore succeeds and re-runs role assignment:
player "a" is DOCTOR after the first start and DETECTIVE after the
second, contradicting the claim that each role is assigned exactly once
and is immutable thereafter. -/
theorem claim_C2_roles_reassigned :
    (startGame lobbyRoom6 "h" (fun i => i) 0).2 = Res.ok ∧
    (startGame lobbyRoom6 "h" (fun i => i) 0).1.phase = Phase.DAY_DISCUSSION ∧
    ((startGame lobbyRoom6 "h" (fun i => i) 0).1.players.find?
        (fun p => p.id == "a")).map (fun p => p.role)
      = some (some Role.DOCTOR) ∧
    (startGame (startGame lobbyRoom6 "h" (fun i => i) 0).1 "h" (fun _ => 0) 5).2
      = Res.ok ∧
    ((startGame (startGame lobbyRoom6 "h" (fun i => i) 0).1 "h"
        (fun _ => 0) 5).1.players.find?
        (fun p => p.id == "a")).map (fun p => p.role)
      = some (some Role.DETECTIVE) := by
  decide
